import Mathlib

/-
Verification development for the yep-fpv scan-and-ingest pipeline.

Shallow embedding of:
  * scanner/scan/info_scan.py   (metadata phase, segment phase, DB inserts, OSS ops)
  * lark_bots/scan_service.py   (command parsing, single-flight task executor)

Conventions of the embedding:
  * PostgreSQL tables are lists of rows inside the `DB` structure; an insert is
    an append, a unique-constraint violation is detected from the current rows.
  * The OSS bucket is a `Remote` value: a list of device directories, each with
    session directories carrying the objects that listings would return.
    Transient-failure schedules (how many consecutive attempts of an operation
    raise) are part of the `Remote`/`SessionDir` values, so a run is a
    deterministic function of (remote, db, arguments).
  * Python character classes (\w, \d, whitespace, lower) are modelled over
    ASCII via Char.isAlphanum / Char.isDigit / Char.isWhitespace / Char.toLower.
  * `date.today()` is passed explicitly as a parameter.
-/

set_option autoImplicit false

namespace FPV

/-! ## String helpers (models of the Python str operations used by the code) -/

/-- Model of Python str.strip(): drop whitespace from both ends. -/
def stripChars (l : List Char) : List Char :=
  ((l.dropWhile Char.isWhitespace).reverse.dropWhile Char.isWhitespace).reverse

/-- Model of Python str.lower() (ASCII). -/
def lowerChars (l : List Char) : List Char :=
  l.map Char.toLower

/-- Model of Python str.split() with no argument: split on whitespace runs,
dropping empty parts. -/
def splitWsAux : List Char → List Char → List (List Char)
  | acc, [] => if acc.isEmpty then [] else [acc.reverse]
  | acc, c :: rest =>
    if c.isWhitespace then
      if acc.isEmpty then splitWsAux [] rest else acc.reverse :: splitWsAux [] rest
    else splitWsAux (c :: acc) rest

def splitWs (l : List Char) : List (List Char) :=
  splitWsAux [] l

/-- Model of Python `pat in s` (substring containment). -/
def hasSub (pat : List Char) : List Char → Bool
  | [] => pat.isEmpty
  | c :: rest => pat.isPrefixOf (c :: rest) || hasSub pat rest

/-- Everything after the last '/', i.e. Python `key.split("/")[-1]`. -/
def lastComp (l : List Char) : List Char :=
  (l.reverse.takeWhile (fun c => !(c == '/'))).reverse

/-- Model of Python str.endswith for a suffix. -/
def endsWithChars (l suffix_ : List Char) : Bool :=
  suffix_.isSuffixOf l

/-- Digits of a string read as a natural number. -/
def digitsToNat (l : List Char) : Nat :=
  l.foldl (fun n c => n * 10 + (c.toNat - '0'.toNat)) 0

/-- Decimal digits of a natural number (no padding), i.e. Python f-string {n}. -/
def natDigitsAux : Nat → List Char → List Char
  | 0, acc => acc
  | n + 1, acc => natDigitsAux ((n + 1) / 10) (Char.ofNat ((n + 1) % 10 + '0'.toNat) :: acc)

def natDigits (n : Nat) : List Char :=
  if n = 0 then ['0'] else natDigitsAux n []

/-- Python f-string {n:02d}: zero-padded to two digits. -/
def natPad2 (n : Nat) : List Char :=
  let d := natDigits n
  if d.length < 2 then '0' :: d else d

/-! ## Dates (model of Python datetime.date) -/

structure Date where
  year : Nat
  month : Nat
  day : Nat
deriving DecidableEq, Repr

def isLeap (y : Nat) : Bool :=
  (y % 4 == 0 && !(y % 100 == 0)) || y % 400 == 0

def daysInMonth (y m : Nat) : Nat :=
  if m = 2 then (if isLeap y then 29 else 28)
  else if m = 4 ∨ m = 6 ∨ m = 9 ∨ m = 11 then 30
  else 31

/-- Model of the `datetime.date(y, m, d)` constructor: `some` on valid input,
`none` when the constructor would raise ValueError (MINYEAR = 1, MAXYEAR = 9999). -/
def mkValidDate (y m d : Nat) : Option Date :=
  if 1 ≤ y ∧ y ≤ 9999 ∧ 1 ≤ m ∧ m ≤ 12 ∧ 1 ≤ d ∧ d ≤ daysInMonth y m then
    some ⟨y, m, d⟩
  else none

/-- Python date comparison `a < b` (lexicographic on year, month, day). -/
def dateLt (a b : Date) : Bool :=
  a.year < b.year ||
    (a.year == b.year &&
      (a.month < b.month || (a.month == b.month && a.day < b.day)))

/-- Python str(date): ISO "YYYY-MM-DD" with zero padding. -/
def dateIso (d : Date) : String :=
  String.mk (natPad2 (d.year / 100) ++ natPad2 (d.year % 100) ++
    ('-' :: natPad2 d.month) ++ ('-' :: natPad2 d.day))

/-- Model of `datetime.strptime(s, "%Y-%m-%d").date()`: %Y is exactly four
digits, %m and %d are one or two digits in range (CPython _strptime regexes),
the whole string must be consumed, and the date() constructor must accept the
numbers. Returns `none` where Python raises ValueError. -/
def parseYMD (l : List Char) : Option Date :=
  let (yd, r1) := l.span Char.isDigit
  if yd.length ≠ 4 then none
  else
    match r1 with
    | '-' :: r2 =>
      let (md, r3) := r2.span Char.isDigit
      if md.length = 0 ∨ 2 < md.length then none
      else
        match r3 with
        | '-' :: r4 =>
          let (dd, r5) := r4.span Char.isDigit
          if dd.length = 0 ∨ 2 < dd.length then none
          else if ¬ r5.isEmpty then none
          else
            let y := digitsToNat yd
            let m := digitsToNat md
            let d := digitsToNat dd
            if 1 ≤ m ∧ m ≤ 12 ∧ 1 ≤ d ∧ d ≤ 31 then mkValidDate y m d else none
        | _ => none
    | _ => none

/-! ## Entity parser helpers (info_scan.py lines 278-331) -/

/-- Model of `parse_session_id` (info_scan.py lines 278-300): matches
`^session_(\d{4})(\d{2})(\d{2})_(\d{2})(\d{2})(\d{2})_\d+$`; on a match,
returns the formatted date string, the raw time string, and the date object,
or ("", "", none) when the id does not match or date() raises. The time
components are not validated (the source only constructs a date). -/
def parse_session_id (session_id : String) : String × String × Option Date :=
  let l := session_id.data
  if "session_".data.isPrefixOf l then
    let r := l.drop 8
    -- layout: YYYYMMDD _ HHMMSS _ digits+
    let dpart := r.take 8
    let sep1 := r.drop 8 |>.take 1
    let tpart := r.drop 9 |>.take 6
    let sep2 := r.drop 15 |>.take 1
    let tail := r.drop 16
    if dpart.length = 8 ∧ dpart.all Char.isDigit ∧ sep1 = ['_'] ∧
        tpart.length = 6 ∧ tpart.all Char.isDigit ∧ sep2 = ['_'] ∧
        ¬ tail.isEmpty ∧ tail.all Char.isDigit then
      let y := digitsToNat (dpart.take 4)
      let mo := digitsToNat (dpart.drop 4 |>.take 2)
      let da := digitsToNat (dpart.drop 6)
      match mkValidDate y mo da with
      | some dt =>
        let dateStr := String.mk (natDigits y ++ ('-' :: natPad2 mo) ++ ('-' :: natPad2 da))
        let timeStr := String.mk (tpart.take 2 ++ (':' :: (tpart.drop 2 |>.take 2)) ++
          (':' :: tpart.drop 4))
        (dateStr, timeStr, some dt)
      | none => ("", "", none)
    else ("", "", none)
  else ("", "", none)

/-- Model of `is_date_in_range` (info_scan.py lines 303-317). -/
def is_date_in_range (session_date : Option Date) (start_date end_date : Option Date) : Bool :=
  match session_date with
  | none => false
  | some d =>
    if start_date.isNone && end_date.isNone then true
    else if (match start_date with | some s => dateLt d s | none => false) then false
    else if (match end_date with | some e => dateLt e d | none => false) then false
    else true

/-- Tail matcher for `parse_mp4_filename`: does `rest` equal
`"_sbs_" ++ digits ++ ".mp4"` with a nonempty digit run? Returns the digits. -/
def mp4Tail (rest : List Char) : Option (List Char) :=
  if "_sbs_".data.isPrefixOf rest then
    let r := rest.drop 5
    if 5 ≤ r.length then
      let d := r.take (r.length - 4)
      let suf := r.drop (r.length - 4)
      if suf = ".mp4".data ∧ d.all Char.isDigit then some d else none
    else none
  else none

/-- Scanner for the non-greedy group `(.+?)`: grow the camera label one
character at a time and take the first position where the rest of the string
matches `_sbs_(\d+)\.mp4`, mirroring the backtracking of the regex engine. -/
def mp4Scan : List Char → List Char → Option (List Char × List Char)
  | _, [] => none
  | camRev, c :: rest =>
    let camRev2 := c :: camRev
    match mp4Tail rest with
    | some d => some (camRev2.reverse, d)
    | none => mp4Scan camRev2 rest

/-- Model of `parse_mp4_filename` (info_scan.py lines 320-331): regex
`^(.+?)_sbs_(\d+)\.mp4$`; returns (camera label, segment number) or ("", ""). -/
def parse_mp4_filename (filename : String) : String × String :=
  match mp4Scan [] filename.data with
  | some (cam, d) => (String.mk cam, String.mk d)
  | none => ("", "")

/-! ## Command parsing (scan_service.py lines 100-188) -/

/-- `ScanCommand` dataclass (scan_service.py lines 100-107). -/
structure ScanCommand where
  device_id : String
  start_date : Date
  end_date : Date
deriving DecidableEq, Repr

/-- `ExportCommand` dataclass (scan_service.py lines 110-119). -/
structure ExportCommand where
  start_date : Option Date
  end_date : Option Date
  export_all : Bool
deriving DecidableEq, Repr

/-- Character class of the device-id regex `^[\w-]+$` (ASCII \w plus dash). -/
def isDeviceChar (c : Char) : Bool :=
  c.isAlphanum || c == '_' || c == '-'

/-- Model of `parse_scan_command` (scan_service.py lines 122-155).
`today` stands for `date.today()`. -/
def parse_scan_command (today : Date) (text : String) : Option ScanCommand :=
  let t := stripChars text.data
  if !("/scan".data.isPrefixOf (lowerChars t)) then none
  else
    let args := stripChars (t.drop 5)
    if args.isEmpty then none
    else
      match splitWs args with
      | [] => none
      | dev :: rest =>
        if !(dev.all isDeviceChar) || hasSub "date".data (lowerChars dev) then none
        else
          match rest with
          | [] => some ⟨String.mk dev, today, today⟩
          | [d1] =>
            match parseYMD d1 with
            | some dt => some ⟨String.mk dev, dt, dt⟩
            | none => none
          | d1 :: d2 :: _ =>
            match parseYMD d1, parseYMD d2 with
            | some a, some b => some ⟨String.mk dev, a, b⟩
            | _, _ => none

/-- Model of `parse_export_command` (scan_service.py lines 158-188). -/
def parse_export_command (today : Date) (text : String) : Option ExportCommand :=
  let t := stripChars text.data
  if !("/export".data.isPrefixOf (lowerChars t)) then none
  else
    let args := stripChars (t.drop 7)
    if lowerChars args = "all".data then some ⟨none, none, true⟩
    else if args.isEmpty then some ⟨some today, some today, false⟩
    else
      match splitWs args with
      | [] => none
      | [d1] =>
        match parseYMD d1 with
        | some dt => some ⟨some dt, some dt, false⟩
        | none => none
      | d1 :: d2 :: _ =>
        match parseYMD d1, parseYMD d2 with
        | some a, some b => some ⟨some a, some b, false⟩
        | _, _ => none

/-! ## Single-flight task executor (scan_service.py lines 298-497)

The executor state is the mutex-protected pair `{_is_running, _current_task}`.
The mutex serializes `try_execute_*` calls and the worker's `finally` block,
so the concurrent system is modelled by sequential interleavings of these
atomic steps. The messaging side effects of a job body touch no executor
state; the job body's only effect on the executor, on success and on failure
alike, is the `finally` block clearing both fields. -/

structure ExecState where
  is_running : Bool
  current_task : Option String
deriving DecidableEq, Repr

/-- The state a fresh `TaskExecutor` starts in (scan_service.py lines 301-305). -/
def execInit : ExecState := ⟨false, none⟩

/-- A job request: the argument of `try_execute_scan` or `try_execute_export`. -/
inductive Job where
  | scanJob (c : ScanCommand)
  | exportJob (c : ExportCommand)
deriving DecidableEq, Repr

/-- `ScanCommand.__str__` (scan_service.py lines 106-107). -/
def scanCmdStr (c : ScanCommand) : String :=
  "设备=" ++ c.device_id ++ ", 日期=" ++ dateIso c.start_date ++ "~" ++ dateIso c.end_date

/-- `ExportCommand.__str__` (scan_service.py lines 116-119). -/
def exportCmdStr (c : ExportCommand) : String :=
  if c.export_all then "导出全部数据"
  else
    "日期=" ++ (match c.start_date with | some d => dateIso d | none => "None") ++ "~" ++
      (match c.end_date with | some d => dateIso d | none => "None")

/-- The `_current_task` description set when a job is accepted
(scan_service.py lines 323 and 335). -/
def jobDesc : Job → String
  | .scanJob c => "扫库: " ++ scanCmdStr c
  | .exportJob c => "导出: " ++ exportCmdStr c

/-- The atomic check-and-set under `self._lock` shared by `try_execute_scan`
(lines 317-327) and `try_execute_export` (lines 329-339): if running, return
False leaving the state alone; otherwise set the flag and description and
return True (the accepted job then starts on a worker thread). -/
def try_start (j : Job) (s : ExecState) : ExecState × Bool :=
  if s.is_running then (s, false)
  else ({ is_running := true, current_task := some (jobDesc j) }, true)

def try_execute_scan (c : ScanCommand) (s : ExecState) : ExecState × Bool :=
  try_start (.scanJob c) s

def try_execute_export (c : ExportCommand) (s : ExecState) : ExecState × Bool :=
  try_start (.exportJob c) s

/-- How a worker body ends: subprocess success, nonzero exit, or an exception
reaching the `except` clause. -/
inductive JobOutcome where
  | succeeded
  | failedReturncode (stderr : String)
  | raisedException (err : String)
deriving DecidableEq, Repr

/-- Executor-state effect of `_run_scan` (scan_service.py lines 341-399): the
body only talks to the messaging channel and a subprocess; whatever the
outcome, the `finally` block (lines 396-399) clears `_is_running` and
`_current_task` under the lock. -/
def run_scan (outcome : JobOutcome) (_s : ExecState) : ExecState :=
  match outcome with
  | .succeeded => { is_running := false, current_task := none }
  | .failedReturncode _ => { is_running := false, current_task := none }
  | .raisedException _ => { is_running := false, current_task := none }

/-- Executor-state effect of `_run_export` (scan_service.py lines 401-464),
with the same guaranteed-cleanup `finally` block (lines 461-464). -/
def run_export (outcome : JobOutcome) (_s : ExecState) : ExecState :=
  match outcome with
  | .succeeded => { is_running := false, current_task := none }
  | .failedReturncode _ => { is_running := false, current_task := none }
  | .raisedException _ => { is_running := false, current_task := none }

/-- One atomic transition of the executor: a `try_execute_*` request (from the
poller thread) or a worker finishing through its `finally` block. -/
inductive ExecStep : ExecState → ExecState → Prop where
  | request (j : Job) (s : ExecState) : ExecStep s (try_start j s).1
  | scanDone (o : JobOutcome) (s : ExecState) : ExecStep s (run_scan o s)
  | exportDone (o : JobOutcome) (s : ExecState) : ExecStep s (run_export o s)

/-- States the executor can reach from construction. -/
inductive ExecReachable : ExecState → Prop where
  | init : ExecReachable execInit
  | step {s s' : ExecState} : ExecReachable s → ExecStep s s' → ExecReachable s'

/-! ## Relational store (tables fpv.devices / fpv.sessions / fpv.segments) -/

/-- A row of fpv.devices, restricted to the columns the ingest path reads
(`load_device_config` / `ensure_device_exists`); the throughput column
`mb_per_10min` is loaded but never consulted by the scan logic. -/
structure DeviceRow where
  device_id : String
  skip_scan : Bool
  is_active : Bool
deriving DecidableEq, Repr

/-- A row of fpv.sessions. `prepare_session_record` (info_scan.py lines
350-396) additionally derives display columns from the metadata document;
the ingest logic only ever consults `session_id` (the unique key), so the
document is carried as an opaque payload together with the identifiers. -/
structure SessionRow where
  session_id : String
  device_id : String
  payload : String
deriving DecidableEq, Repr

/-- A row of fpv.segments (the columns inserted by `insert_segment`,
info_scan.py lines 591-623), unique on (session_id, segment_number). -/
structure SegmentRow where
  session_id : String
  segment_number : String
  down_file_name : String
  down_oss_path : String
  down_file_size_bytes : Nat
  front_file_name : String
  front_oss_path : String
  front_file_size_bytes : Nat
deriving DecidableEq, Repr

/-- The database state: the three tables, each as its list of rows. -/
structure DB where
  devices : List DeviceRow
  sessions : List SessionRow
  segments : List SegmentRow
deriving DecidableEq, Repr

/-- First row of fpv.devices with the given id (the point lookup behind
`ensure_device_exists` and the in-memory `device_config` dict, which
`load_device_config` fills from this table and which `ensure_device_exists`
keeps in sync with it). -/
def findDevice (db : DB) (did : String) : Option DeviceRow :=
  db.devices.find? (fun r => r.device_id == did)

/-- Truth of `SELECT 1 FROM fpv.sessions WHERE session_id = %s`. -/
def sessionInDb (db : DB) (sid : String) : Bool :=
  db.sessions.any (fun r => r.session_id == sid)

/-- Truth of `SELECT 1 FROM fpv.segments WHERE session_id = %s AND
segment_number = %s`. -/
def segmentInDb (db : DB) (sid num : String) : Bool :=
  db.segments.any (fun r => r.session_id == sid && r.segment_number == num)

/-- Model of `is_session_exists` (info_scan.py lines 191-202): the SELECT, but
any exception from the query is caught and turned into False, so a failing
lookup reports "not present". `queryRaises` says whether this execution of the
query raises. -/
def is_session_exists (queryRaises : Bool) (db : DB) (session_id : String) : Bool :=
  if queryRaises then false else sessionInDb db session_id

/-- Model of `is_segment_exists` (info_scan.py lines 205-216), with the same
fail-open exception handler. -/
def is_segment_exists (queryRaises : Bool) (db : DB) (session_id segment_number : String) : Bool :=
  if queryRaises then false else segmentInDb db session_id segment_number

/-- Model of `insert_session` (info_scan.py lines 399-436). The INSERT runs in
its own transaction: on a UniqueViolation (exactly when a row with this
session_id already exists) the transaction is rolled back and False returned;
on any other database error (`otherRaises`) likewise; otherwise the row is
committed and True returned. -/
def insert_session (otherRaises : Bool) (db : DB) (r : SessionRow) : DB × Bool :=
  if sessionInDb db r.session_id then (db, false)
  else if otherRaises then (db, false)
  else ({ db with sessions := db.sessions ++ [r] }, true)

/-- Model of `insert_segment` (info_scan.py lines 591-623), same shape with
the unique key (session_id, segment_number). -/
def insert_segment (otherRaises : Bool) (db : DB) (r : SegmentRow) : DB × Bool :=
  if segmentInDb db r.session_id r.segment_number then (db, false)
  else if otherRaises then (db, false)
  else ({ db with segments := db.segments ++ [r] }, true)

/-! ## Remote storage and failure schedules

`Remote` is the content of the OSS bucket as the listings would report it,
plus a deterministic schedule of transient failures: for each remote call
site, how many consecutive attempts raise before one succeeds. A retried
operation with `failures` scheduled succeeds on attempt `failures + 1`
if the retry policy allows that many attempts. -/

/-- Outcome of a (possibly retried) remote operation. -/
inductive OpResult (α : Type) where
  | ok (val : α)
  | failed
deriving DecidableEq, Repr

/-- A call protected by tenacity-style `stop_after_attempt maxAttempts`
against a schedule of `failures` consecutive transient errors: it succeeds
iff one of the allowed attempts lies past the failures; `maxAttempts = 1`
is a bare, unretried call. -/
def runWithRetry {α : Type} (maxAttempts failures : Nat) (val : α) : OpResult α :=
  if failures < maxAttempts then .ok val else .failed

/-- The tenacity wait between attempts, `wait_exponential(multiplier=0.5,
min=1, max=10)`, in tenths of a second: before retry n the sleep is
clamp(0.5 * 2^n, 1, 10) seconds. -/
def backoffWaitDs (n : Nat) : Nat :=
  min (max (5 * 2 ^ n) 10) 100

/-- An object under a session's segments/ directory: its full key, its true
content-length, and whether the `head_object` call for it raises. -/
structure RemoteObj where
  key : String
  size : Nat
  headRaises : Bool
deriving DecidableEq, Repr

/-- Model of `get_object_size` (info_scan.py lines 259-271): the function body
catches every exception from `head_object` and returns 0, so although a retry
decorator is attached, no exception ever reaches it and a failing head call
yields 0 on the first attempt. -/
def get_object_size (o : RemoteObj) : Nat :=
  if o.headRaises then 0 else o.size

/-- One session directory under a device prefix, together with the failure
schedule of every remote or database call made while processing it. -/
structure SessionDir where
  /-- Directory name, e.g. "session_20251028_051033_882605"; this is the
  session_id the scans derive from the listed prefix. -/
  name : String
  /-- Whether the object `<session>/metadata.json` exists. -/
  hasMetadataFile : Bool
  /-- Consecutive raises of the bare `bucket.object_exists` call
  (info_scan.py line 529; the call has no retry decorator). -/
  metadataCheckFailures : Nat
  /-- Consecutive raises of the bare `bucket.get_object_to_file` call
  (info_scan.py line 536; no retry decorator). -/
  downloadFailures : Nat
  /-- Whether `json.load` on the downloaded document succeeds. -/
  parseOk : Bool
  /-- The metadata document (opaque payload of the session row). -/
  payload : String
  /-- Objects listed under `<session>/segments/`. -/
  objs : List RemoteObj
  /-- Consecutive raises of `list_objects` for the segments listing
  (info_scan.py line 727; retried, and its failure is caught at line 728). -/
  listObjFailures : Nat
  /-- Whether the `is_session_exists` SELECT raises in the metadata phase. -/
  metaSessionQueryRaises : Bool
  /-- Whether the `is_session_exists` SELECT raises in the segment phase. -/
  segSessionQueryRaises : Bool
  /-- Whether the `insert_session` INSERT raises a non-unique-violation error. -/
  insertRaises : Bool
  /-- Segment numbers whose `is_segment_exists` SELECT raises. -/
  segQueryRaisesFor : List String
  /-- Segment numbers whose `insert_segment` INSERT raises a
  non-unique-violation error. -/
  segInsertRaisesFor : List String
deriving DecidableEq, Repr

/-- One device prefix at the bucket root. -/
structure DeviceDir where
  device_id : String
  sessions : List SessionDir
  /-- Consecutive raises of `list_prefixes(bucket, device_prefix)`
  (info_scan.py lines 490 and 684; retried, but not wrapped in try). -/
  listSesFailures : Nat
  /-- Whether the auto-registration INSERT in `ensure_device_exists` raises. -/
  registerRaises : Bool
deriving DecidableEq, Repr

/-- The remote bucket state. -/
structure Remote where
  bucket_name : String
  devices : List DeviceDir
  /-- Consecutive raises of the root `list_prefixes(bucket, "")`
  (info_scan.py lines 470 and 662; retried, not wrapped in try). -/
  listDevFailures : Nat
deriving DecidableEq, Repr

/-- Model of `ensure_device_exists` (info_scan.py lines 150-188), acting on
the devices table (the in-memory `device_config` dict mirrors it): a known
device is usable iff it is active and not skip-listed; an unknown device is
registered with the defaults (active, not skipped) and usable, unless the
registration INSERT raises, in which case it is rolled back and the device
reported unusable. -/
def ensure_device_exists (db : DB) (d : DeviceDir) : DB × Bool :=
  match findDevice db d.device_id with
  | some row => (db, !row.skip_scan && row.is_active)
  | none =>
    if d.registerRaises then (db, false)
    else ({ db with devices := db.devices ++ [⟨d.device_id, false, true⟩] }, true)

/-- The device filter `if device_id_filter and device_id != device_id_filter`
(info_scan.py lines 477 and 668). -/
def passesFilter (filt : Option String) (did : String) : Bool :=
  match filt with
  | none => true
  | some f => f == did

/-- Arguments of a scan run (date range, device filter, debug mode). -/
structure ScanArgs where
  start_date : Option Date
  end_date : Option Date
  device_id_filter : Option String
  debug_mode : Bool
deriving DecidableEq, Repr

/-- The session prefixes both phases actually iterate: those whose directory
name starts with "session_" (info_scan.py lines 491 and 685). -/
def validSessionsOf (d : DeviceDir) : List SessionDir :=
  d.sessions.filter (fun sd => "session_".data.isPrefixOf sd.name.data)

/-! ## Metadata phase (`scan_metadata`, info_scan.py lines 439-584) -/

/-- The stats dict of `scan_metadata` (info_scan.py lines 456-465), field for
field: 扫描设备数, 扫描会话数, 新增会话数, 已存在会话数, 跳过会话数,
metadata不存在, 解析失败数, 插入失败数. -/
structure MetaStats where
  devicesScanned : Nat
  sessionsScanned : Nat
  newSessions : Nat
  existingSessions : Nat
  dateSkipped : Nat
  noMetadata : Nat
  parseFailures : Nat
  insertFailures : Nat
deriving DecidableEq, Repr

def metaStats0 : MetaStats := ⟨0, 0, 0, 0, 0, 0, 0, 0⟩

/-- Model of `prepare_session_record` (info_scan.py lines 350-396) restricted
to the identifying columns; the remaining columns are functions of the opaque
payload and are never read again by the ingest path. -/
def prepare_session_record (device_id session_id payload : String) : SessionRow :=
  ⟨session_id, device_id, payload⟩

/-- The body of the per-session loop of `scan_metadata` (info_scan.py lines
504-569): date filter, existence gate, metadata.json existence check (bare,
unretried), download (bare), JSON parse, insert. Any exception from the
check/download/parse steps is caught at line 563 and counted as 解析失败数.
The returned Bool is the debug-mode early-return trigger (lines 553-557). -/
def processMetaSession (a : ScanArgs) (device_id : String) (sd : SessionDir)
    (db : DB) (st : MetaStats) : DB × MetaStats × Bool :=
  let st := { st with sessionsScanned := st.sessionsScanned + 1 }
  let sessionDate := (parse_session_id sd.name).2.2
  if !(is_date_in_range sessionDate a.start_date a.end_date) then
    (db, { st with dateSkipped := st.dateSkipped + 1 }, false)
  else if is_session_exists sd.metaSessionQueryRaises db sd.name then
    (db, { st with existingSessions := st.existingSessions + 1 }, false)
  else
    match runWithRetry 1 sd.metadataCheckFailures sd.hasMetadataFile with
    | .failed =>
      -- object_exists raised; caught by the generic handler at line 563
      (db, { st with parseFailures := st.parseFailures + 1 }, false)
    | .ok hasMeta =>
      if !hasMeta then
        (db, { st with noMetadata := st.noMetadata + 1 }, false)
      else
        match runWithRetry 1 sd.downloadFailures () with
        | .failed =>
          -- get_object_to_file raised; generic handler
          (db, { st with parseFailures := st.parseFailures + 1 }, false)
        | .ok _ =>
          if !sd.parseOk then
            -- json.JSONDecodeError handler at line 559
            (db, { st with parseFailures := st.parseFailures + 1 }, false)
          else
            let record := prepare_session_record device_id sd.name sd.payload
            let (db2, ok) := insert_session sd.insertRaises db record
            let st2 :=
              if ok then { st with newSessions := st.newSessions + 1 }
              else { st with insertFailures := st.insertFailures + 1 }
            (db2, st2, a.debug_mode && decide (5 ≤ st2.newSessions))

/-- The per-device session loop (info_scan.py lines 504-569): left to right,
stopping the whole phase on the debug-mode trigger. -/
def scanMetaSessions (a : ScanArgs) (device_id : String) :
    List SessionDir → DB → MetaStats → DB × MetaStats × Bool
  | [], db, st => (db, st, false)
  | sd :: rest, db, st =>
    match processMetaSession a device_id sd db st with
    | (db1, st1, true) => (db1, st1, true)
    | (db1, st1, false) => scanMetaSessions a device_id rest db1 st1

/-- Control outcome of one device iteration. -/
inductive Flow where
  | next
  | stopDebug
  | aborted
deriving DecidableEq, Repr

/-- One iteration of the device loop of `scan_metadata` (info_scan.py lines
473-579): device filter, `ensure_device_exists` gate, statistics, session
listing (retried 5 times but not wrapped in try: exhaustion aborts the phase),
then the session loop over the prefixes whose directory name starts with
"session_". -/
def processMetaDevice (a : ScanArgs) (d : DeviceDir) (db : DB) (st : MetaStats) :
    DB × MetaStats × Flow :=
  if !(passesFilter a.device_id_filter d.device_id) then (db, st, .next)
  else
    let (db1, usable) := ensure_device_exists db d
    if !usable then (db1, st, .next)
    else
      let st1 := { st with devicesScanned := st.devicesScanned + 1 }
      match runWithRetry 5 d.listSesFailures d with
      | .failed => (db1, st1, .aborted)
      | .ok dir =>
        let valid := validSessionsOf dir
        match scanMetaSessions a d.device_id valid db1 st1 with
        | (db2, st2, true) => (db2, st2, .stopDebug)
        | (db2, st2, false) => (db2, st2, .next)

/-- Result of a phase: final database, final stats, and whether the phase was
aborted by an uncaught listing exception (in which case the Python function
never returns and the stats are lost to the caller, while the committed
inserts persist). -/
structure MetaResult where
  db : DB
  stats : MetaStats
  aborted : Bool
deriving DecidableEq, Repr

def scanMetaDevices (a : ScanArgs) : List DeviceDir → DB → MetaStats → MetaResult
  | [], db, st => ⟨db, st, false⟩
  | d :: rest, db, st =>
    match processMetaDevice a d db st with
    | (db1, st1, .aborted) => ⟨db1, st1, true⟩
    | (db1, st1, .stopDebug) => ⟨db1, st1, false⟩
    | (db1, st1, .next) => scanMetaDevices a rest db1 st1

/-- Model of `scan_metadata` (info_scan.py lines 439-584). -/
def scan_metadata (remote : Remote) (db : DB) (a : ScanArgs) : MetaResult :=
  match runWithRetry 5 remote.listDevFailures remote.devices with
  | .failed => ⟨db, metaStats0, true⟩
  | .ok devs => scanMetaDevices a devs db metaStats0

/-! ## Segment phase (`scan_segments`, info_scan.py lines 626-841) -/

/-- The stats dict of `scan_segments` (info_scan.py lines 645-655): 扫描设备数,
扫描会话数, 处理会话数, 新增视频段数, 已存在视频段数, 跳过会话数, 未配对段数,
文件名无效数, 会话不存在数. -/
structure SegStats where
  devicesScanned : Nat
  sessionsScanned : Nat
  sessionsProcessed : Nat
  newSegments : Nat
  existingSegments : Nat
  dateSkipped : Nat
  unpaired : Nat
  invalidFilenames : Nat
  missingSessions : Nat
deriving DecidableEq, Repr

def segStats0 : SegStats := ⟨0, 0, 0, 0, 0, 0, 0, 0, 0⟩

/-- The per-camera `files` entries of the grouping dict: the triple of fields
set together for the down or front slot (info_scan.py lines 756-762). -/
structure CamSlot where
  file_name : String
  oss_path : String
  size : Nat
deriving DecidableEq, Repr

/-- One value of `segments_dict`: the (possibly absent) down and front slots. -/
structure PairSlots where
  down : Option CamSlot
  front : Option CamSlot
deriving DecidableEq, Repr

/-- Write the down slot of key `num`, creating the entry at the end as the
defaultdict would (info_scan.py lines 755-758). -/
def updateDown : List (String × PairSlots) → String → CamSlot → List (String × PairSlots)
  | [], num, slot => [(num, ⟨some slot, none⟩)]
  | (k, s) :: rest, num, slot =>
    if k == num then (k, { s with down := some slot }) :: rest
    else (k, s) :: updateDown rest num slot

/-- Write the front slot of key `num` (info_scan.py lines 759-762). -/
def updateFront : List (String × PairSlots) → String → CamSlot → List (String × PairSlots)
  | [], num, slot => [(num, ⟨none, some slot⟩)]
  | (k, s) :: rest, num, slot =>
    if k == num then (k, { s with front := some slot }) :: rest
    else (k, s) :: updateFront rest num slot

/-- One step of the grouping loop over mp4 objects (info_scan.py lines
742-765): parse the filename, fetch path and size, classify the camera label
by case-insensitive substring as down / front / invalid. -/
def addObjToDict (bucket_name : String) (acc : List (String × PairSlots) × Nat)
    (o : RemoteObj) : List (String × PairSlots) × Nat :=
  let (dict, invalid) := acc
  let filename := lastComp o.key.data
  let (cam, num) := parse_mp4_filename (String.mk filename)
  if cam == "" || num == "" then (dict, invalid + 1)
  else
    let oss_path := "oss://" ++ bucket_name ++ "/" ++ o.key
    let file_size := get_object_size o
    let camLower := lowerChars cam.data
    if hasSub "down".data camLower then
      (updateDown dict num ⟨String.mk filename, oss_path, file_size⟩, invalid)
    else if hasSub "front".data camLower then
      (updateFront dict num ⟨String.mk filename, oss_path, file_size⟩, invalid)
    else (dict, invalid + 1)

/-- Lexicographic comparison of the underlying code points, as Python string
comparison in `sorted(segments_dict.items())`. -/
def lexLe : List Char → List Char → Bool
  | [], _ => true
  | _ :: _, [] => false
  | a :: xs, b :: ys =>
    if a.val < b.val then true
    else if b.val < a.val then false
    else lexLe xs ys

def insSorted (p : String × PairSlots) :
    List (String × PairSlots) → List (String × PairSlots)
  | [] => [p]
  | q :: rest => if lexLe p.1.data q.1.data then p :: q :: rest else q :: insSorted p rest

/-- `sorted(segments_dict.items())` (info_scan.py line 775); the keys are
distinct so sorting on the pair is sorting on the key. -/
def sortByKey (l : List (String × PairSlots)) : List (String × PairSlots) :=
  l.foldr insSorted []

/-- `new_segments.add((session_id, segment_number))`: set insertion. -/
def setAdd (s : List (String × String)) (p : String × String) : List (String × String) :=
  if p ∈ s then s else s ++ [p]

/-- Flush of the per-session counters paired_new / paired_exists / unpaired
into the global stats (info_scan.py lines 811-813 and 820-822). -/
def flushSession (st : SegStats) (pn pe up : Nat) : SegStats :=
  { st with
    newSegments := st.newSegments + pn
    existingSegments := st.existingSegments + pe
    unpaired := st.unpaired + up }

/-- The loop over sorted, grouped pairs (info_scan.py lines 775-822): a pair
missing either slot is unpaired; an existing pair is skipped; otherwise the
row is inserted, a success being recorded in the change tracker. The debug
trigger compares the global counter plus the session-local one (line 809) and
on firing flushes the local counters and stops the phase. -/
def procPairs (a : ScanArgs) (sd : SessionDir) :
    List (String × PairSlots) → DB → SegStats → List (String × String) →
      Nat → Nat → Nat → DB × SegStats × List (String × String) × Bool
  | [], db, st, segs, pn, pe, up => (db, flushSession st pn pe up, segs, false)
  | (num, files) :: rest, db, st, segs, pn, pe, up =>
    match files.down, files.front with
    | some dslot, some fslot =>
      if is_segment_exists (sd.segQueryRaisesFor.contains num) db sd.name num then
        procPairs a sd rest db st segs pn (pe + 1) up
      else
        let record : SegmentRow :=
          ⟨sd.name, num, dslot.file_name, dslot.oss_path, dslot.size,
            fslot.file_name, fslot.oss_path, fslot.size⟩
        let (db2, ok) := insert_segment (sd.segInsertRaisesFor.contains num) db record
        let pn2 := if ok then pn + 1 else pn
        let segs2 := if ok then setAdd segs (sd.name, num) else segs
        if a.debug_mode && decide (5 ≤ st.newSegments + pn2) then
          (db2, flushSession st pn2 pe up, segs2, true)
        else
          procPairs a sd rest db2 st segs2 pn2 pe up
    | _, _ =>
      -- one of the two camera files is missing: unpaired, dropped
      procPairs a sd rest db st segs pn pe (up + 1)

/-- The body of the per-session loop of `scan_segments` (info_scan.py lines
699-825): date filter, Session-existence gate (before any listing), segments
listing (retried; an exhausted failure is caught at line 728 and skips the
session), mp4 filter, grouping, then the pair loop. -/
def processSegSession (a : ScanArgs) (bucket_name : String) (sd : SessionDir)
    (db : DB) (st : SegStats) (segs : List (String × String)) :
    DB × SegStats × List (String × String) × Bool :=
  let st := { st with sessionsScanned := st.sessionsScanned + 1 }
  let sessionDate := (parse_session_id sd.name).2.2
  if !(is_date_in_range sessionDate a.start_date a.end_date) then
    (db, { st with dateSkipped := st.dateSkipped + 1 }, segs, false)
  else if !(is_session_exists sd.segSessionQueryRaises db sd.name) then
    (db, { st with missingSessions := st.missingSessions + 1 }, segs, false)
  else
    let st := { st with sessionsProcessed := st.sessionsProcessed + 1 }
    match runWithRetry 5 sd.listObjFailures sd.objs with
    | .failed => (db, st, segs, false)
    | .ok objs =>
      let mp4s := objs.filter (fun o => endsWithChars o.key.data ".mp4".data)
      if mp4s.isEmpty then (db, st, segs, false)
      else
        let (dict, invalid) := mp4s.foldl (addObjToDict bucket_name) ([], 0)
        let st := if 0 < invalid then
          { st with invalidFilenames := st.invalidFilenames + invalid } else st
        procPairs a sd (sortByKey dict) db st segs 0 0 0

def scanSegSessions (a : ScanArgs) (bucket_name : String) :
    List SessionDir → DB → SegStats → List (String × String) →
      DB × SegStats × List (String × String) × Bool
  | [], db, st, segs => (db, st, segs, false)
  | sd :: rest, db, st, segs =>
    match processSegSession a bucket_name sd db st segs with
    | (db1, st1, segs1, true) => (db1, st1, segs1, true)
    | (db1, st1, segs1, false) => scanSegSessions a bucket_name rest db1 st1 segs1

/-- One iteration of the device loop of `scan_segments` (info_scan.py lines
664-835): device filter, presence in device_config (no auto-registration in
this phase, and no is_active check either — only skip_scan), session listing
(retried, uncaught: exhaustion aborts the phase), then the session loop. -/
def processSegDevice (a : ScanArgs) (bucket_name : String) (d : DeviceDir)
    (db : DB) (st : SegStats) (segs : List (String × String)) :
    DB × SegStats × List (String × String) × Flow :=
  if !(passesFilter a.device_id_filter d.device_id) then (db, st, segs, .next)
  else
    match findDevice db d.device_id with
    | none => (db, st, segs, .next)
    | some row =>
      if row.skip_scan then (db, st, segs, .next)
      else
        let st1 := { st with devicesScanned := st.devicesScanned + 1 }
        match runWithRetry 5 d.listSesFailures d with
        | .failed => (db, st1, segs, .aborted)
        | .ok dir =>
          let valid := validSessionsOf dir
          match scanSegSessions a bucket_name valid db st1 segs with
          | (db2, st2, segs2, true) => (db2, st2, segs2, .stopDebug)
          | (db2, st2, segs2, false) => (db2, st2, segs2, .next)

/-- Result of the segment phase: final database, stats, the change tracker
(`new_segments`), and the abort flag. -/
structure SegResult where
  db : DB
  stats : SegStats
  new_segments : List (String × String)
  aborted : Bool
deriving DecidableEq, Repr

def scanSegDevices (a : ScanArgs) (bucket_name : String) :
    List DeviceDir → DB → SegStats → List (String × String) → SegResult
  | [], db, st, segs => ⟨db, st, segs, false⟩
  | d :: rest, db, st, segs =>
    match processSegDevice a bucket_name d db st segs with
    | (db1, st1, segs1, .aborted) => ⟨db1, st1, segs1, true⟩
    | (db1, st1, segs1, .stopDebug) => ⟨db1, st1, segs1, false⟩
    | (db1, st1, segs1, .next) => scanSegDevices a bucket_name rest db1 st1 segs1

/-- Model of `scan_segments` (info_scan.py lines 626-841). -/
def scan_segments (remote : Remote) (db : DB) (a : ScanArgs) : SegResult :=
  match runWithRetry 5 remote.listDevFailures remote.devices with
  | .failed => ⟨db, segStats0, [], true⟩
  | .ok devs => scanSegDevices a remote.bucket_name devs db segStats0 []

/-! ## Concrete scenarios used by witnesses and counterexamples -/

/-- A session directory with no failures scheduled anywhere. -/
def mkSession (name : String) (objs : List RemoteObj) : SessionDir :=
  ⟨name, true, 0, 0, true, "{}", objs, 0, false, false, false, [], []⟩

def dbEmpty : DB := ⟨[], [], []⟩

def theDay : Date := ⟨2025, 1, 15⟩

/-- Scan arguments: 2025-01-15 only, no device filter, debug off. -/
def argsW : ScanArgs := ⟨some theDay, some theDay, none, false⟩

def sidW : String := "session_20250115_051033_882605"

def downKeyW : String := "7393/" ++ sidW ++ "/segments/cam_down_sbs_0001.mp4"

def frontKeyW : String := "7393/" ++ sidW ++ "/segments/cam_front_sbs_0001.mp4"

/-- A remote with one device and one cleanly ingestable session holding one
paired segment. -/
def remClean : Remote :=
  ⟨"bkt", [⟨"7393", [mkSession sidW [⟨downKeyW, 111, false⟩, ⟨frontKeyW, 222, false⟩]], 0, false⟩], 0⟩

/-- A database that already holds the session row of `sidW` and an active
device row for "7393". -/
def dbWithSession : DB :=
  ⟨[⟨"7393", false, true⟩], [⟨sidW, "7393", "{}"⟩], []⟩

/-- C9 scenario: the session is present in the database but the
`is_session_exists` SELECT raises during the metadata phase. -/
def remOracleDown : Remote :=
  ⟨"bkt",
    [⟨"7393",
      [{ mkSession sidW [] with metaSessionQueryRaises := true }], 0, false⟩], 0⟩

/-- C10 scenario: a paired segment whose down file's head_object call raises. -/
def remHeadDown : Remote :=
  ⟨"bkt",
    [⟨"7393", [mkSession sidW [⟨downKeyW, 111, true⟩, ⟨frontKeyW, 222, false⟩]], 0, false⟩], 0⟩

/-- C7 scenario: the bare `bucket.object_exists` call suffers exactly one
transient failure for this session. -/
def remExistsFlaky : Remote :=
  ⟨"bkt",
    [⟨"7393", [{ mkSession sidW [] with metadataCheckFailures := 1 }], 0, false⟩], 0⟩

def sidW2 : String := "session_20250115_061033_111111"

/-- C7 amended scenario: first session's existence check fails transiently
once, the second session is clean — isolation at session granularity. -/
def remIsolation : Remote :=
  ⟨"bkt",
    [⟨"7393",
      [{ mkSession sidW [] with metadataCheckFailures := 1 }, mkSession sidW2 []],
      0, false⟩], 0⟩

/-- C7 amended scenario: the root prefix listing fails 4 times (still within
the 5 allowed attempts). -/
def remListFlaky4 : Remote :=
  ⟨"bkt", [⟨"7393", [mkSession sidW []], 0, false⟩], 4⟩

/-- C7 amended scenario: the root prefix listing fails 5 times (retries
exhausted; the phase aborts). -/
def remListDead : Remote :=
  ⟨"bkt", [⟨"7393", [mkSession sidW []], 0, false⟩], 5⟩

/-- C6 scenario: two sessions; the first is already in the database but its
existence SELECT raises, so the scan proceeds to an insert that hits the
unique constraint; the second is new and must still be ingested. -/
def remDupThenNew : Remote :=
  ⟨"bkt",
    [⟨"7393",
      [{ mkSession sidW [] with metaSessionQueryRaises := true }, mkSession sidW2 []],
      0, false⟩], 0⟩

/-- C4 scenario: a session whose listing holds only down-camera files. -/
def remOnlyDown : Remote :=
  ⟨"bkt",
    [⟨"7393",
      [mkSession sidW
        [⟨downKeyW, 111, false⟩,
          ⟨"7393/" ++ sidW ++ "/segments/cam_down_sbs_0002.mp4", 99, false⟩]],
      0, false⟩], 0⟩

/-- C5 scenario: a session directory present remotely whose session row is
absent from the database. -/
def remNoSessionRow : Remote := remClean

/-- A concrete job request for the executor witnesses. -/
def jobW : Job := .scanJob ⟨"7393", theDay, theDay⟩

def jobW2 : Job := .exportJob ⟨none, none, true⟩

/-- A database holding only an active, scannable device row for "7393". -/
def dbDeviceOnly : DB := ⟨[⟨"7393", false, true⟩], [], []⟩

/-- The segment row a clean scan of `remClean` commits. -/
def rowW : SegmentRow :=
  ⟨sidW, "0001", "cam_down_sbs_0001.mp4", "oss://bkt/" ++ downKeyW, 111,
    "cam_front_sbs_0001.mp4", "oss://bkt/" ++ frontKeyW, 222⟩

/-! ## Specification predicates used by the invariant theorems -/

/-- The unique key of a segment row. -/
def rowKey (r : SegmentRow) : String × String :=
  (r.session_id, r.segment_number)

/-- A camera file for segment number `num` is present in the session's remote
listing at scan time: an object whose key ends in ".mp4", whose filename
parses as `<label>_sbs_<num>.mp4`, and whose label contains `cam`
case-insensitively. -/
def camWitness (cam : String) (sd : SessionDir) (num : String) : Prop :=
  ∃ o ∈ sd.objs, endsWithChars o.key.data ".mp4".data = true ∧
    ¬ (parse_mp4_filename (String.mk (lastComp o.key.data))).1 = "" ∧
    (parse_mp4_filename (String.mk (lastComp o.key.data))).2 = num ∧
    hasSub cam.data
      (lowerChars (parse_mp4_filename (String.mk (lastComp o.key.data))).1.data) = true

def DownWitness (sd : SessionDir) (num : String) : Prop :=
  camWitness "down" sd num

def FrontWitness (sd : SessionDir) (num : String) : Prop :=
  camWitness "front" sd num

/-- Soundness of a grouping-dict entry: whichever slot is filled, the
corresponding camera file was listed. -/
def PairGood (sd : SessionDir) (e : String × PairSlots) : Prop :=
  (e.2.down.isSome = true → DownWitness sd e.1) ∧
  (e.2.front.isSome = true → FrontWitness sd e.1)

/-- Shape of a segment-phase state transition, relative to the state `(db,
segs)` it started from: sessions and devices untouched, segments extended by
exactly the rows whose keys were appended to the change tracker, every added
row satisfying `P`, belonging to a session row that already existed, and not
previously present. -/
def SegStepOk (P : SegmentRow → Prop) (db : DB) (segs : List (String × String))
    (db' : DB) (segs' : List (String × String)) : Prop :=
  db'.sessions = db.sessions ∧ db'.devices = db.devices ∧
  ∃ added, db'.segments = db.segments ++ added ∧ segs' = segs ++ added.map rowKey ∧
    ∀ row ∈ added, P row ∧ sessionInDb db row.session_id = true ∧
      segmentInDb db row.session_id row.segment_number = false

/-- A segment row originating, paired, from some listed session directory of
the remote. -/
def PairedOrigin (remote : Remote) (row : SegmentRow) : Prop :=
  ∃ d ∈ remote.devices, ∃ sd ∈ d.sessions, row.session_id = sd.name ∧
    DownWitness sd row.segment_number ∧ FrontWitness sd row.segment_number

/-! ## Fault-free predicates and invariants for the metadata phase -/

/-- No failure is scheduled on any call made for this session during the
metadata phase. -/
def cleanMetaSession (sd : SessionDir) : Bool :=
  sd.metadataCheckFailures == 0 && sd.downloadFailures == 0 &&
    !sd.metaSessionQueryRaises && !sd.insertRaises

def cleanMetaDevice (d : DeviceDir) : Bool :=
  decide (d.listSesFailures < 5) && !d.registerRaises && d.sessions.all cleanMetaSession

def cleanMetaRemote (r : Remote) : Bool :=
  decide (r.listDevFailures < 5) && r.devices.all cleanMetaDevice

/-- The database-independent part of "the metadata phase would insert this
session": in the date range, metadata.json present, JSON parses. -/
def metaIndep (a : ScanArgs) (sd : SessionDir) : Bool :=
  is_date_in_range (parse_session_id sd.name).2.2 a.start_date a.end_date &&
    sd.hasMetadataFile && sd.parseOk

/-- A fault-free metadata pass over this session inserts a row exactly when
`metaIndep` holds and the session is not yet stored. -/
def metaInsertable (a : ScanArgs) (sd : SessionDir) (db : DB) : Bool :=
  metaIndep a sd && !(sessionInDb db sd.name)

/-- Saturation of a session directory: if the session is ingestable at all,
its row is already stored. -/
def SatS (a : ScanArgs) (sd : SessionDir) (db : DB) : Prop :=
  metaIndep a sd = true → sessionInDb db sd.name = true

/-- The `ensure_device_exists` gate read off a device row. -/
def devGateRow (r : DeviceRow) : Bool :=
  !r.skip_scan && r.is_active

/-- Post-first-run invariant for a device entry: its row is registered, and
if that row passes the gate then every session directory the phase iterates
is saturated. -/
def DevInvM (a : ScanArgs) (d : DeviceDir) (db : DB) : Prop :=
  ∃ r, findDevice db d.device_id = some r ∧
    (devGateRow r = true → ∀ sd ∈ validSessionsOf d, SatS a sd db)

/-- Monotone growth of the database over a metadata phase: devices and
sessions only gain rows, segments are untouched. -/
def MetaExtend (db db' : DB) : Prop :=
  (∃ t, db'.devices = db.devices ++ t) ∧
    (∃ t, db'.sessions = db.sessions ++ t) ∧ db'.segments = db.segments

/-! # Theorems -/

/-! ## Small helper lemmas -/

theorem jobDesc_ne_empty (j : Job) : jobDesc j ≠ "" := by
  cases j with
  | scanJob c =>
    intro h
    have h2 := congrArg String.data h
    simp only [jobDesc] at h2
    rw [String.data_append] at h2
    simp at h2
  | exportJob c =>
    intro h
    have h2 := congrArg String.data h
    simp only [jobDesc] at h2
    rw [String.data_append] at h2
    simp at h2

theorem segmentInDb_of_mem {db : DB} {row : SegmentRow} (h : row ∈ db.segments) :
    segmentInDb db row.session_id row.segment_number = true := by
  refine List.any_eq_true.2 ⟨row, h, ?_⟩
  simp

theorem segmentInDb_mem_of_true {db : DB} {sid num : String}
    (h : segmentInDb db sid num = true) :
    ∃ row ∈ db.segments, row.session_id = sid ∧ row.segment_number = num := by
  obtain ⟨row, hmem, hval⟩ := List.any_eq_true.1 h
  rw [Bool.and_eq_true, beq_iff_eq, beq_iff_eq] at hval
  exact ⟨row, hmem, hval⟩

theorem sessionInDb_eq_of_sessions_eq {db db' : DB} (h : db'.sessions = db.sessions)
    (sid : String) : sessionInDb db' sid = sessionInDb db sid := by
  simp [sessionInDb, h]

theorem segmentInDb_true_of_extend {db db' : DB} {t : List SegmentRow}
    (h : db'.segments = db.segments ++ t) {sid num : String}
    (htrue : segmentInDb db sid num = true) : segmentInDb db' sid num = true := by
  simp only [segmentInDb, h, List.any_append, Bool.or_eq_true]
  exact Or.inl htrue

theorem segmentInDb_false_of_extend {db db' : DB} {t : List SegmentRow}
    (h : db'.segments = db.segments ++ t) {sid num : String}
    (hfalse : segmentInDb db' sid num = false) : segmentInDb db sid num = false := by
  by_contra hne
  rw [Bool.not_eq_false] at hne
  rw [segmentInDb_true_of_extend h hne] at hfalse
  cases hfalse

theorem SegStepOk_refl (P : SegmentRow → Prop) (db : DB) (segs : List (String × String)) :
    SegStepOk P db segs db segs :=
  ⟨rfl, rfl, [], by simp, by simp, by simp⟩

theorem SegStepOk_trans {P : SegmentRow → Prop} {db db' db'' : DB}
    {segs segs' segs'' : List (String × String)}
    (h1 : SegStepOk P db segs db' segs') (h2 : SegStepOk P db' segs' db'' segs'') :
    SegStepOk P db segs db'' segs'' := by
  obtain ⟨hs1, hd1, a1, hseg1, htr1, hrow1⟩ := h1
  obtain ⟨hs2, hd2, a2, hseg2, htr2, hrow2⟩ := h2
  refine ⟨hs2.trans hs1, hd2.trans hd1, a1 ++ a2, ?_, ?_, ?_⟩
  · rw [hseg2, hseg1, List.append_assoc]
  · rw [htr2, htr1, List.map_append, List.append_assoc]
  · intro row hrow
    rcases List.mem_append.1 hrow with h | h
    · exact hrow1 row h
    · obtain ⟨hP, hsid, hnum⟩ := hrow2 row h
      refine ⟨hP, ?_, ?_⟩
      · rw [← sessionInDb_eq_of_sessions_eq hs1]
        exact hsid
      · exact segmentInDb_false_of_extend hseg1 hnum

theorem SegStepOk_mono {P Q : SegmentRow → Prop} (hPQ : ∀ r, P r → Q r)
    {db db' : DB} {segs segs' : List (String × String)}
    (h : SegStepOk P db segs db' segs') : SegStepOk Q db segs db' segs' := by
  obtain ⟨hs, hd, a, hseg, htr, hrow⟩ := h
  refine ⟨hs, hd, a, hseg, htr, fun row hr => ?_⟩
  obtain ⟨hP, h1, h2⟩ := hrow row hr
  exact ⟨hPQ row hP, h1, h2⟩

theorem SegStepOk_single {P : SegmentRow → Prop} {db : DB}
    {segs : List (String × String)} {r : SegmentRow} (hP : P r)
    (hs : sessionInDb db r.session_id = true)
    (hn : segmentInDb db r.session_id r.segment_number = false)
    (hsegs : ∀ p ∈ segs, segmentInDb db p.1 p.2 = true) :
    SegStepOk P db segs { db with segments := db.segments ++ [r] }
      (setAdd segs (rowKey r)) := by
  have hnotmem : rowKey r ∉ segs := by
    intro hmem
    have htrue := hsegs (rowKey r) hmem
    simp only [rowKey] at htrue
    rw [hn] at htrue
    cases htrue
  refine ⟨rfl, rfl, [r], rfl, ?_, ?_⟩
  · simp [setAdd, hnotmem]
  · intro row hrow
    rw [List.mem_singleton] at hrow
    subst hrow
    exact ⟨hP, hs, hn⟩

theorem segsInv_step {P : SegmentRow → Prop} {db db' : DB}
    {segs segs' : List (String × String)}
    (hinv : ∀ p ∈ segs, segmentInDb db p.1 p.2 = true)
    (h : SegStepOk P db segs db' segs') :
    ∀ p ∈ segs', segmentInDb db' p.1 p.2 = true := by
  obtain ⟨hs, hd, a, hseg, htr, hrow⟩ := h
  intro p hp
  rw [htr] at hp
  rcases List.mem_append.1 hp with h | h
  · exact segmentInDb_true_of_extend hseg (hinv p h)
  · obtain ⟨row, hmem, hkey⟩ := List.mem_map.1 h
    subst hkey
    refine segmentInDb_of_mem ?_
    rw [hseg]
    exact List.mem_append_right _ hmem

theorem updateDown_good {sd : SessionDir} {num : String} {slot : CamSlot}
    (hw : DownWitness sd num) :
    ∀ {dict : List (String × PairSlots)}, (∀ e ∈ dict, PairGood sd e) →
      ∀ e ∈ updateDown dict num slot, PairGood sd e := by
  intro dict
  induction dict with
  | nil =>
    intro _ e he
    rw [updateDown, List.mem_singleton] at he
    subst he
    exact ⟨fun _ => hw, fun h => by simp at h⟩
  | cons hd tl ih =>
    intro hall e he
    obtain ⟨k, s⟩ := hd
    rw [updateDown] at he
    by_cases hk : (k == num) = true
    · rw [if_pos hk] at he
      rcases List.mem_cons.1 he with h | h
      · subst h
        have hkeq : k = num := beq_iff_eq.1 hk
        refine ⟨fun _ => ?_, fun hf => ?_⟩
        · rw [hkeq]; exact hw
        · exact (hall (k, s) (List.mem_cons_self _ _)).2 hf
      · exact hall e (List.mem_cons_of_mem _ h)
    · rw [if_neg hk] at he
      rcases List.mem_cons.1 he with h | h
      · subst h
        exact hall (k, s) (List.mem_cons_self _ _)
      · exact ih (fun e' he' => hall e' (List.mem_cons_of_mem _ he')) e h

theorem updateFront_good {sd : SessionDir} {num : String} {slot : CamSlot}
    (hw : FrontWitness sd num) :
    ∀ {dict : List (String × PairSlots)}, (∀ e ∈ dict, PairGood sd e) →
      ∀ e ∈ updateFront dict num slot, PairGood sd e := by
  intro dict
  induction dict with
  | nil =>
    intro _ e he
    rw [updateFront, List.mem_singleton] at he
    subst he
    exact ⟨fun h => by simp at h, fun _ => hw⟩
  | cons hd tl ih =>
    intro hall e he
    obtain ⟨k, s⟩ := hd
    rw [updateFront] at he
    by_cases hk : (k == num) = true
    · rw [if_pos hk] at he
      rcases List.mem_cons.1 he with h | h
      · subst h
        have hkeq : k = num := beq_iff_eq.1 hk
        refine ⟨fun hf => ?_, fun _ => ?_⟩
        · exact (hall (k, s) (List.mem_cons_self _ _)).1 hf
        · rw [hkeq]; exact hw
      · exact hall e (List.mem_cons_of_mem _ h)
    · rw [if_neg hk] at he
      rcases List.mem_cons.1 he with h | h
      · subst h
        exact hall (k, s) (List.mem_cons_self _ _)
      · exact ih (fun e' he' => hall e' (List.mem_cons_of_mem _ he')) e h

theorem addObjToDict_good {bn : String} {sd : SessionDir} {o : RemoteObj}
    (ho : o ∈ sd.objs) (hm : endsWithChars o.key.data ".mp4".data = true)
    {acc : List (String × PairSlots) × Nat} (hacc : ∀ e ∈ acc.1, PairGood sd e) :
    ∀ e ∈ (addObjToDict bn acc o).1, PairGood sd e := by
  obtain ⟨dict, inv⟩ := acc
  rcases hp : parse_mp4_filename (String.mk (lastComp o.key.data)) with ⟨cam, num⟩
  by_cases hz : (cam == "" || num == "") = true
  · intro e he
    simp only [addObjToDict, hp, hz, if_pos] at he
    exact hacc e he
  · have hcamne : ¬ cam = "" := by
      intro h
      apply hz
      simp [h]
    by_cases hdn : hasSub "down".data (lowerChars cam.data) = true
    · have hw : DownWitness sd num := by
        refine ⟨o, ho, hm, ?_, ?_, ?_⟩
        · rw [hp]; exact hcamne
        · rw [hp]
        · rw [hp]; exact hdn
      intro e he
      simp only [addObjToDict, hp, hz, hdn, if_neg, if_pos, Bool.false_eq_true,
        not_false_eq_true] at he
      exact updateDown_good hw hacc e he
    · by_cases hfr : hasSub "front".data (lowerChars cam.data) = true
      · have hw : FrontWitness sd num := by
          refine ⟨o, ho, hm, ?_, ?_, ?_⟩
          · rw [hp]; exact hcamne
          · rw [hp]
          · rw [hp]; exact hfr
        intro e he
        simp only [addObjToDict, hp, hz, hdn, hfr, if_neg, if_pos, Bool.false_eq_true,
          not_false_eq_true] at he
        exact updateFront_good hw hacc e he
      · intro e he
        simp only [addObjToDict, hp, hz, hdn, hfr, if_neg, Bool.false_eq_true,
          not_false_eq_true] at he
        exact hacc e he

theorem foldDict_good {bn : String} {sd : SessionDir} :
    ∀ (objs : List RemoteObj) (acc : List (String × PairSlots) × Nat),
      (∀ o ∈ objs, o ∈ sd.objs ∧ endsWithChars o.key.data ".mp4".data = true) →
      (∀ e ∈ acc.1, PairGood sd e) →
      ∀ e ∈ (objs.foldl (addObjToDict bn) acc).1, PairGood sd e := by
  intro objs
  induction objs with
  | nil => intro acc _ hacc; exact hacc
  | cons o rest ih =>
    intro acc hobjs hacc
    rw [List.foldl_cons]
    refine ih _ (fun o' ho' => hobjs o' (List.mem_cons_of_mem _ ho')) ?_
    exact addObjToDict_good (hobjs o (List.mem_cons_self _ _)).1 (hobjs o (List.mem_cons_self _ _)).2 hacc

theorem mem_of_mem_insSorted {p q : String × PairSlots} :
    ∀ {l : List (String × PairSlots)}, q ∈ insSorted p l → q = p ∨ q ∈ l := by
  intro l
  induction l with
  | nil => intro h; rw [insSorted, List.mem_singleton] at h; exact Or.inl h
  | cons hd tl ih =>
    intro h
    rw [insSorted] at h
    by_cases hc : lexLe p.1.data hd.1.data = true
    · rw [if_pos hc] at h
      rcases List.mem_cons.1 h with h1 | h1
      · exact Or.inl h1
      · exact Or.inr h1
    · rw [if_neg hc] at h
      rcases List.mem_cons.1 h with h1 | h1
      · exact Or.inr (h1 ▸ List.mem_cons_self _ _)
      · rcases ih h1 with h2 | h2
        · exact Or.inl h2
        · exact Or.inr (List.mem_cons_of_mem _ h2)

theorem mem_of_mem_sortByKey {q : String × PairSlots} :
    ∀ {l : List (String × PairSlots)}, q ∈ sortByKey l → q ∈ l := by
  have aux : ∀ (l : List (String × PairSlots)), q ∈ l.foldr insSorted [] → q ∈ l := by
    intro l
    induction l with
    | nil => intro h; exact h
    | cons hd tl ih =>
      intro h
      rw [List.foldr_cons] at h
      rcases mem_of_mem_insSorted h with h1 | h1
      · exact h1 ▸ List.mem_cons_self _ _
      · exact List.mem_cons_of_mem _ (ih h1)
  intro l h
  exact aux l h

/-- The per-pair loop only commits rows for the session at hand whose down and
front files were both listed, extending the segments table and the change
tracker in lock step. -/
theorem procPairs_spec (a : ScanArgs) (sd : SessionDir) :
    ∀ (pairs : List (String × PairSlots)) (db : DB) (st : SegStats)
      (segs : List (String × String)) (pn pe up : Nat),
      (∀ e ∈ pairs, PairGood sd e) →
      (∀ p ∈ segs, segmentInDb db p.1 p.2 = true) →
      sessionInDb db sd.name = true →
      SegStepOk (fun row => row.session_id = sd.name ∧
          DownWitness sd row.segment_number ∧ FrontWitness sd row.segment_number)
        db segs
        (procPairs a sd pairs db st segs pn pe up).1
        (procPairs a sd pairs db st segs pn pe up).2.2.1 := by
  intro pairs
  induction pairs with
  | nil =>
    intro db st segs pn pe up _ _ _
    rw [procPairs]
    exact SegStepOk_refl _ _ _
  | cons pr rest ih =>
    intro db st segs pn pe up hpairs hsegs hsid
    obtain ⟨num, files⟩ := pr
    have hrest : ∀ e ∈ rest, PairGood sd e :=
      fun e he => hpairs e (List.mem_cons_of_mem _ he)
    rcases hdown : files.down with _ | dslot
    · simp only [procPairs, hdown]
      exact ih db st segs pn pe (up + 1) hrest hsegs hsid
    · rcases hfront : files.front with _ | fslot
      · simp only [procPairs, hdown, hfront]
        exact ih db st segs pn pe (up + 1) hrest hsegs hsid
      · simp only [procPairs, hdown, hfront]
        by_cases hex : is_segment_exists (sd.segQueryRaisesFor.contains num) db sd.name num = true
        · rw [if_pos hex]
          exact ih db st segs pn (pe + 1) up hrest hsegs hsid
        · rw [if_neg hex]
          by_cases hindb : segmentInDb db sd.name num = true
          · have hins : insert_segment (sd.segInsertRaisesFor.contains num) db
                ⟨sd.name, num, dslot.file_name, dslot.oss_path, dslot.size,
                  fslot.file_name, fslot.oss_path, fslot.size⟩ = (db, false) := by
              simp [insert_segment, hindb]
            simp only [hins, Bool.false_eq_true, if_false]
            by_cases hdbg : (a.debug_mode && decide (5 ≤ st.newSegments + pn)) = true
            · rw [if_pos hdbg]
              exact SegStepOk_refl _ _ _
            · rw [if_neg hdbg]
              exact ih db st segs pn pe up hrest hsegs hsid
          · have hindb' : segmentInDb db sd.name num = false := by
              rw [Bool.not_eq_true] at hindb
              exact hindb
            by_cases hraise : sd.segInsertRaisesFor.contains num = true
            · have hins : insert_segment (sd.segInsertRaisesFor.contains num) db
                  ⟨sd.name, num, dslot.file_name, dslot.oss_path, dslot.size,
                    fslot.file_name, fslot.oss_path, fslot.size⟩ = (db, false) := by
                simp [insert_segment, hindb', List.mem_of_elem_eq_true hraise]
              simp only [hins, Bool.false_eq_true, if_false]
              by_cases hdbg : (a.debug_mode && decide (5 ≤ st.newSegments + pn)) = true
              · rw [if_pos hdbg]
                exact SegStepOk_refl _ _ _
              · rw [if_neg hdbg]
                exact ih db st segs pn pe up hrest hsegs hsid
            · have hins : insert_segment (sd.segInsertRaisesFor.contains num) db
                  ⟨sd.name, num, dslot.file_name, dslot.oss_path, dslot.size,
                    fslot.file_name, fslot.oss_path, fslot.size⟩ =
                  ({ db with segments := db.segments ++
                    [⟨sd.name, num, dslot.file_name, dslot.oss_path, dslot.size,
                      fslot.file_name, fslot.oss_path, fslot.size⟩] }, true) := by
                simp only [insert_segment, hindb', Bool.false_eq_true, if_false]
                rw [if_neg hraise]
              simp only [hins, if_true]
              have hgood := hpairs (num, files) (List.mem_cons_self _ _)
              have hdw : DownWitness sd num := hgood.1 (by rw [hdown]; rfl)
              have hfw : FrontWitness sd num := hgood.2 (by rw [hfront]; rfl)
              have hstep : SegStepOk (fun row => row.session_id = sd.name ∧
                  DownWitness sd row.segment_number ∧ FrontWitness sd row.segment_number)
                  db segs
                  { db with segments := db.segments ++
                    [⟨sd.name, num, dslot.file_name, dslot.oss_path, dslot.size,
                      fslot.file_name, fslot.oss_path, fslot.size⟩] }
                  (setAdd segs (sd.name, num)) :=
                SegStepOk_single ⟨rfl, hdw, hfw⟩ hsid hindb' hsegs
              by_cases hdbg : (a.debug_mode && decide (5 ≤ st.newSegments + (pn + 1))) = true
              · rw [if_pos hdbg]
                exact hstep
              · rw [if_neg hdbg]
                refine SegStepOk_trans hstep ?_
                refine ih _ st (setAdd segs (sd.name, num)) (pn + 1) pe up hrest ?_ ?_
                · exact segsInv_step hsegs hstep
                · exact hsid

theorem sessionInDb_of_exists_true {r : Bool} {db : DB} {sid : String}
    (h : is_session_exists r db sid = true) : sessionInDb db sid = true := by
  cases r with
  | false => exact h
  | true => exact absurd h (by simp [is_session_exists])

/-- One session iteration of the segment phase only commits rows of this
session directory, paired from its listing. -/
theorem processSegSession_spec (a : ScanArgs) (bn : String) (sd : SessionDir)
    (db : DB) (st : SegStats) (segs : List (String × String))
    (hsegs : ∀ p ∈ segs, segmentInDb db p.1 p.2 = true) :
    SegStepOk (fun row => row.session_id = sd.name ∧
        DownWitness sd row.segment_number ∧ FrontWitness sd row.segment_number)
      db segs
      (processSegSession a bn sd db st segs).1
      (processSegSession a bn sd db st segs).2.2.1 := by
  by_cases hdate :
      is_date_in_range (parse_session_id sd.name).2.2 a.start_date a.end_date = true
  · by_cases hgate : is_session_exists sd.segSessionQueryRaises db sd.name = true
    · have hsid : sessionInDb db sd.name = true := sessionInDb_of_exists_true hgate
      simp only [processSegSession, hdate, hgate, Bool.not_true, Bool.false_eq_true,
        if_false]
      cases hlist : runWithRetry 5 sd.listObjFailures sd.objs with
      | failed => exact SegStepOk_refl _ _ _
      | ok objs =>
        have hobjs : objs = sd.objs := by
          unfold runWithRetry at hlist
          by_cases h5 : sd.listObjFailures < 5
          · rw [if_pos h5] at hlist
            cases hlist
            rfl
          · rw [if_neg h5] at hlist
            cases hlist
        by_cases hmp : (objs.filter (fun o => endsWithChars o.key.data ".mp4".data)).isEmpty = true
        · simp only [hmp, if_true]
          exact SegStepOk_refl _ _ _
        · simp only [hmp, Bool.false_eq_true, if_false]
          refine procPairs_spec a sd _ db _ segs 0 0 0 ?_ hsegs hsid
          intro e he
          refine foldDict_good (objs.filter (fun o => endsWithChars o.key.data ".mp4".data))
            ([], 0) ?_ (by intro e' he'; cases he') e (mem_of_mem_sortByKey he)
          intro o ho
          have := List.mem_filter.1 ho
          refine ⟨?_, this.2⟩
          rw [← hobjs]
          exact this.1
    · simp only [processSegSession, hdate, hgate, Bool.not_true, Bool.not_false,
        Bool.false_eq_true, if_false, if_true]
      exact SegStepOk_refl _ _ _
  · simp only [processSegSession, hdate, Bool.not_true, Bool.not_false,
      Bool.false_eq_true, if_false, if_true]
    exact SegStepOk_refl _ _ _

theorem scanSegSessions_spec (a : ScanArgs) (bn : String) :
    ∀ (sds : List SessionDir) (db : DB) (st : SegStats) (segs : List (String × String)),
      (∀ p ∈ segs, segmentInDb db p.1 p.2 = true) →
      SegStepOk (fun row => ∃ sd ∈ sds, row.session_id = sd.name ∧
          DownWitness sd row.segment_number ∧ FrontWitness sd row.segment_number)
        db segs
        (scanSegSessions a bn sds db st segs).1
        (scanSegSessions a bn sds db st segs).2.2.1 := by
  intro sds
  induction sds with
  | nil =>
    intro db st segs _
    exact SegStepOk_refl _ _ _
  | cons sd rest ih =>
    intro db st segs hsegs
    have hstep := processSegSession_spec a bn sd db st segs hsegs
    have hstepBig := @SegStepOk_mono _
      (fun row => ∃ sd' ∈ sd :: rest, row.session_id = sd'.name ∧
        DownWitness sd' row.segment_number ∧ FrontWitness sd' row.segment_number)
      (fun row hr => ⟨sd, List.mem_cons_self _ _, hr⟩) _ _ _ _ hstep
    rcases hps : processSegSession a bn sd db st segs with ⟨db1, st1, segs1, stop⟩
    rw [hps] at hstepBig
    cases stop with
    | true =>
      simp only [scanSegSessions, hps]
      exact hstepBig
    | false =>
      simp only [scanSegSessions, hps]
      have hsegs1 : ∀ p ∈ segs1, segmentInDb db1 p.1 p.2 = true := by
        have := segsInv_step hsegs hstep
        rw [hps] at this
        exact this
      have hrest := ih db1 st1 segs1 hsegs1
      refine SegStepOk_trans hstepBig (SegStepOk_mono ?_ hrest)
      rintro row ⟨sd', hmem, hr⟩
      exact ⟨sd', List.mem_cons_of_mem _ hmem, hr⟩

theorem processSegDevice_spec (a : ScanArgs) (bn : String) (d : DeviceDir)
    (db : DB) (st : SegStats) (segs : List (String × String))
    (hsegs : ∀ p ∈ segs, segmentInDb db p.1 p.2 = true) :
    SegStepOk (fun row => ∃ sd ∈ d.sessions, row.session_id = sd.name ∧
        DownWitness sd row.segment_number ∧ FrontWitness sd row.segment_number)
      db segs
      (processSegDevice a bn d db st segs).1
      (processSegDevice a bn d db st segs).2.2.1 := by
  by_cases hfil : passesFilter a.device_id_filter d.device_id = true
  · simp only [processSegDevice, hfil, Bool.not_true, Bool.false_eq_true, if_false]
    cases hfind : findDevice db d.device_id with
    | none => exact SegStepOk_refl _ _ _
    | some row =>
      by_cases hskip : row.skip_scan = true
      · simp only [hskip, if_true]
        exact SegStepOk_refl _ _ _
      · simp only [hskip, Bool.false_eq_true, if_false]
        cases hlist : runWithRetry 5 d.listSesFailures d with
        | failed => exact SegStepOk_refl _ _ _
        | ok dir =>
          have hdir : dir = d := by
            unfold runWithRetry at hlist
            by_cases h5 : d.listSesFailures < 5
            · rw [if_pos h5] at hlist; cases hlist; rfl
            · rw [if_neg h5] at hlist; cases hlist
          have hsess := scanSegSessions_spec a bn (validSessionsOf dir) db
            { st with devicesScanned := st.devicesScanned + 1 } segs hsegs
          have hsessBig := @SegStepOk_mono _
            (fun row => ∃ sd ∈ d.sessions, row.session_id = sd.name ∧
              DownWitness sd row.segment_number ∧ FrontWitness sd row.segment_number)
            (fun row hr => by
              obtain ⟨sd', hmem, hr'⟩ := hr
              rw [hdir] at hmem
              exact ⟨sd', (List.mem_filter.1 hmem).1, hr'⟩) _ _ _ _ hsess
          rcases hss : scanSegSessions a bn (validSessionsOf dir) db
              { st with devicesScanned := st.devicesScanned + 1 } segs with
            ⟨db2, st2, segs2, stop⟩
          rw [hss] at hsessBig
          cases stop with
          | true =>
            simp only [hss]
            exact hsessBig
          | false =>
            simp only [hss]
            exact hsessBig
  · simp only [processSegDevice, hfil, Bool.not_false, if_true]
    exact SegStepOk_refl _ _ _

theorem scanSegDevices_spec (a : ScanArgs) (bn : String) :
    ∀ (devs : List DeviceDir) (db : DB) (st : SegStats) (segs : List (String × String)),
      (∀ p ∈ segs, segmentInDb db p.1 p.2 = true) →
      SegStepOk (fun row => ∃ d ∈ devs, ∃ sd ∈ d.sessions, row.session_id = sd.name ∧
          DownWitness sd row.segment_number ∧ FrontWitness sd row.segment_number)
        db segs
        (scanSegDevices a bn devs db st segs).db
        (scanSegDevices a bn devs db st segs).new_segments := by
  intro devs
  induction devs with
  | nil =>
    intro db st segs _
    exact SegStepOk_refl _ _ _
  | cons d rest ih =>
    intro db st segs hsegs
    have hstep := processSegDevice_spec a bn d db st segs hsegs
    have hstepBig := @SegStepOk_mono _
      (fun row => ∃ d' ∈ d :: rest, ∃ sd ∈ d'.sessions, row.session_id = sd.name ∧
        DownWitness sd row.segment_number ∧ FrontWitness sd row.segment_number)
      (fun row hr => ⟨d, List.mem_cons_self _ _, hr⟩) _ _ _ _ hstep
    rcases hpd : processSegDevice a bn d db st segs with ⟨db1, st1, segs1, flow⟩
    rw [hpd] at hstepBig
    cases flow with
    | aborted =>
      simp only [scanSegDevices, hpd]
      exact hstepBig
    | stopDebug =>
      simp only [scanSegDevices, hpd]
      exact hstepBig
    | next =>
      simp only [scanSegDevices, hpd]
      have hsegs1 : ∀ p ∈ segs1, segmentInDb db1 p.1 p.2 = true := by
        have := segsInv_step hsegs hstep
        rw [hpd] at this
        exact this
      have hrest := ih db1 st1 segs1 hsegs1
      refine SegStepOk_trans hstepBig (SegStepOk_mono ?_ hrest)
      rintro row ⟨d', hmem, hr⟩
      exact ⟨d', List.mem_cons_of_mem _ hmem, hr⟩

/-- Master invariant of the segment phase: it never touches the sessions or
devices tables, and extends the segments table by exactly the rows whose keys
fill the change tracker — each committed against a pre-existing session, not
previously present, and paired in some listed session directory. -/
theorem scan_segments_spec (remote : Remote) (db : DB) (a : ScanArgs) :
    SegStepOk (PairedOrigin remote) db []
      (scan_segments remote db a).db (scan_segments remote db a).new_segments := by
  cases hlist : runWithRetry 5 remote.listDevFailures remote.devices with
  | failed =>
    simp only [scan_segments, hlist]
    exact SegStepOk_refl _ _ _
  | ok devs =>
    have hdevs : devs = remote.devices := by
      unfold runWithRetry at hlist
      by_cases h5 : remote.listDevFailures < 5
      · rw [if_pos h5] at hlist; cases hlist; rfl
      · rw [if_neg h5] at hlist; cases hlist
    simp only [scan_segments, hlist]
    refine SegStepOk_mono ?_
      (scanSegDevices_spec a remote.bucket_name devs db segStats0 [] (by intro p hp; cases hp))
    rintro row ⟨d', hmem, hr⟩
    rw [hdevs] at hmem
    exact ⟨d', hmem, hr⟩

/-! ## C3: change-tracker exactness -/

/-- C3: after a Segment-phase run the change tracker holds exactly the keys of
the segment rows committed during that run: the final segments table is the
initial one plus the tracked rows, the tracker's size equals the number of
rows actually committed, and a pair is tracked iff it is stored afterwards
but was not stored before — so candidates that were unpaired, already
present, or whose insert failed are never tracked. -/
theorem change_tracker_exact (remote : Remote) (db : DB) (a : ScanArgs) :
    ∃ added, (scan_segments remote db a).db.segments = db.segments ++ added ∧
      (scan_segments remote db a).new_segments = added.map rowKey ∧
      (scan_segments remote db a).new_segments.length =
        (scan_segments remote db a).db.segments.length - db.segments.length ∧
      ∀ p, p ∈ (scan_segments remote db a).new_segments ↔
        (segmentInDb (scan_segments remote db a).db p.1 p.2 = true ∧
          segmentInDb db p.1 p.2 = false) := by
  obtain ⟨hs, hd, added, hseg, htr, hrow⟩ := scan_segments_spec remote db a
  rw [List.nil_append] at htr
  refine ⟨added, hseg, htr, ?_, ?_⟩
  · rw [htr, hseg, List.length_map, List.length_append]
    omega
  · intro p
    constructor
    · intro hp
      rw [htr] at hp
      obtain ⟨row, hmem, hkey⟩ := List.mem_map.1 hp
      obtain ⟨_, _, hfalse⟩ := hrow row hmem
      subst hkey
      refine ⟨segmentInDb_of_mem ?_, hfalse⟩
      rw [hseg]
      exact List.mem_append_right _ hmem
    · rintro ⟨htrue, hfalse⟩
      obtain ⟨row, hmem, h1, h2⟩ := segmentInDb_mem_of_true htrue
      rw [hseg] at hmem
      rcases List.mem_append.1 hmem with h | h
      · exfalso
        have := segmentInDb_of_mem h
        rw [h1, h2, hfalse] at this
        cases this
      · rw [htr]
        refine List.mem_map.2 ⟨row, h, ?_⟩
        rw [rowKey, h1, h2]

/-! ## C4: pairing invariant -/

/-- C4: every segment row the phase adds has, at scan time, both a down and a
front camera file listed for its segment number in the session directory it
came from; and a run over a session listing only down files inserts nothing
(both candidates counted unpaired). -/
theorem segment_pairing_invariant :
    (∀ (remote : Remote) (db : DB) (a : ScanArgs),
      ∀ row ∈ (scan_segments remote db a).db.segments,
        row ∈ db.segments ∨ PairedOrigin remote row) ∧
    (scan_segments remOnlyDown dbWithSession argsW).db.segments = [] ∧
    (scan_segments remOnlyDown dbWithSession argsW).stats.newSegments = 0 ∧
    (scan_segments remOnlyDown dbWithSession argsW).new_segments = [] ∧
    (scan_segments remOnlyDown dbWithSession argsW).stats.unpaired = 2 := by
  refine ⟨?_, by decide, by decide, by decide, by decide⟩
  intro remote db a row hrow
  obtain ⟨hs, hd, added, hseg, htr, hadded⟩ := scan_segments_spec remote db a
  rw [hseg] at hrow
  rcases List.mem_append.1 hrow with h | h
  · exact Or.inl h
  · exact Or.inr (hadded row h).1

/-- C4 witness: the clean one-pair scan commits `rowW`, and the invariant
applied to it yields a paired origin. -/
theorem segment_pairing_invariant_witness :
    rowW ∈ (scan_segments remClean dbWithSession argsW).db.segments ∧
    (rowW ∈ dbWithSession.segments ∨ PairedOrigin remClean rowW) :=
  ⟨by decide,
    segment_pairing_invariant.1 remClean dbWithSession argsW rowW (by decide)⟩

/-! ## C5: session-before-segment ordering -/

/-- C5: the segment phase never writes the sessions table, and never inserts
a segment row whose session_id lacks a Session row — every added row's
session existed in the database when the phase started; a session directory
without a Session row is skipped (counted 会话不存在, not processed) and
contributes no segments. -/
theorem session_before_segment :
    (∀ (remote : Remote) (db : DB) (a : ScanArgs),
      (scan_segments remote db a).db.sessions = db.sessions) ∧
    (∀ (remote : Remote) (db : DB) (a : ScanArgs),
      ∀ row ∈ (scan_segments remote db a).db.segments,
        row ∈ db.segments ∨ sessionInDb db row.session_id = true) ∧
    (scan_segments remNoSessionRow dbDeviceOnly argsW).db.segments = [] ∧
    (scan_segments remNoSessionRow dbDeviceOnly argsW).stats.missingSessions = 1 ∧
    (scan_segments remNoSessionRow dbDeviceOnly argsW).stats.sessionsProcessed = 0 ∧
    (scan_segments remNoSessionRow dbDeviceOnly argsW).stats.newSegments = 0 := by
  refine ⟨?_, ?_, by decide, by decide, by decide, by decide⟩
  · intro remote db a
    exact (scan_segments_spec remote db a).1
  · intro remote db a row hrow
    obtain ⟨hs, hd, added, hseg, htr, hadded⟩ := scan_segments_spec remote db a
    rw [hseg] at hrow
    rcases List.mem_append.1 hrow with h | h
    · exact Or.inl h
    · exact Or.inr (hadded row h).2.1

/-- C5 witness: the committed row of the clean scan has its Session row in
the starting database. -/
theorem session_before_segment_witness :
    ((scan_segments remClean dbWithSession argsW).db.sessions = dbWithSession.sessions) ∧
    rowW ∈ (scan_segments remClean dbWithSession argsW).db.segments ∧
    (rowW ∈ dbWithSession.segments ∨ sessionInDb dbWithSession rowW.session_id = true) :=
  ⟨session_before_segment.1 remClean dbWithSession argsW,
    by decide,
    session_before_segment.2.1 remClean dbWithSession argsW rowW (by decide)⟩

/-! ## Metadata-phase invariants (toward C1) -/

theorem MetaExtend_refl (db : DB) : MetaExtend db db :=
  ⟨⟨[], by simp⟩, ⟨[], by simp⟩, rfl⟩

theorem MetaExtend_trans {db db' db'' : DB} (h1 : MetaExtend db db')
    (h2 : MetaExtend db' db'') : MetaExtend db db'' := by
  obtain ⟨⟨t1, hd1⟩, ⟨u1, hs1⟩, hg1⟩ := h1
  obtain ⟨⟨t2, hd2⟩, ⟨u2, hs2⟩, hg2⟩ := h2
  refine ⟨⟨t1 ++ t2, ?_⟩, ⟨u1 ++ u2, ?_⟩, hg2.trans hg1⟩
  · rw [hd2, hd1, List.append_assoc]
  · rw [hs2, hs1, List.append_assoc]

theorem sessionInDb_true_of_metaExtend {db db' : DB} (h : MetaExtend db db')
    {sid : String} (htrue : sessionInDb db sid = true) : sessionInDb db' sid = true := by
  obtain ⟨_, ⟨u, hs⟩, _⟩ := h
  simp only [sessionInDb, hs, List.any_append, Bool.or_eq_true]
  exact Or.inl htrue

theorem find?_append_of_some {α : Type} {p : α → Bool} :
    ∀ {l : List α} {r : α}, l.find? p = some r → ∀ (t : List α), (l ++ t).find? p = some r := by
  intro l
  induction l with
  | nil => intro r h; cases h
  | cons x xs ih =>
    intro r h t
    rw [List.cons_append]
    cases hp : p x with
    | true =>
      rw [List.find?_cons_of_pos _ hp] at h ⊢
      exact h
    | false =>
      rw [List.find?_cons_of_neg _ ?_] at h ⊢
      · exact ih h t
      · simp [hp]
      · simp [hp]

theorem find?_append_none {α : Type} {p : α → Bool} :
    ∀ {l : List α}, l.find? p = none → ∀ (t : List α), (l ++ t).find? p = t.find? p := by
  intro l
  induction l with
  | nil => intro _ t; rfl
  | cons x xs ih =>
    intro h t
    rw [List.cons_append]
    cases hp : p x with
    | true => rw [List.find?_cons_of_pos _ hp] at h; cases h
    | false =>
      rw [List.find?_cons_of_neg _ ?_] at h ⊢
      · exact ih h t
      · simp [hp]
      · simp [hp]

theorem findDevice_stable {db db' : DB} {did : String} {r : DeviceRow}
    (h : findDevice db did = some r) (hext : MetaExtend db db') :
    findDevice db' did = some r := by
  obtain ⟨⟨t, hd⟩, _, _⟩ := hext
  rw [findDevice, hd]
  exact find?_append_of_some h t

theorem SatS_of_metaExtend {a : ScanArgs} {sd : SessionDir} {db db' : DB}
    (h : SatS a sd db) (hext : MetaExtend db db') : SatS a sd db' :=
  fun hidep => sessionInDb_true_of_metaExtend hext (h hidep)

theorem DevInvM_of_metaExtend {a : ScanArgs} {d : DeviceDir} {db db' : DB}
    (h : DevInvM a d db) (hext : MetaExtend db db') : DevInvM a d db' := by
  obtain ⟨r, hfind, hgate⟩ := h
  exact ⟨r, findDevice_stable hfind hext,
    fun hg sd hsd => SatS_of_metaExtend (hgate hg sd hsd) hext⟩

theorem runWithRetry_zero {α : Type} {m : Nat} (v : α) (hm : 0 < m) :
    runWithRetry m 0 v = .ok v := by
  simp [runWithRetry, hm]

/-- Fault-free, non-debug behaviour of one metadata session step: never
triggers the debug stop, inserts the session's row exactly when
`metaInsertable` holds, and counts it then. -/
theorem processMetaSession_clean {a : ScanArgs} (did : String) {sd : SessionDir}
    (db : DB) (st : MetaStats) (hc : cleanMetaSession sd = true)
    (hdbg : a.debug_mode = false) :
    (processMetaSession a did sd db st).2.2 = false ∧
    (processMetaSession a did sd db st).1 =
      (if metaInsertable a sd db = true then
        { db with sessions := db.sessions ++ [prepare_session_record did sd.name sd.payload] }
      else db) ∧
    (processMetaSession a did sd db st).2.1.newSessions =
      st.newSessions + (if metaInsertable a sd db = true then 1 else 0) := by
  simp only [cleanMetaSession, Bool.and_eq_true, beq_iff_eq, Bool.not_eq_true'] at hc
  obtain ⟨⟨⟨h1, h2⟩, h3⟩, h4⟩ := hc
  by_cases hdate :
      is_date_in_range (parse_session_id sd.name).2.2 a.start_date a.end_date = true
  · by_cases hindb : sessionInDb db sd.name = true
    · have hgate : is_session_exists sd.metaSessionQueryRaises db sd.name = true := by
        rw [h3]
        exact hindb
      have hins : metaInsertable a sd db = false := by
        simp [metaInsertable, hindb]
      simp only [processMetaSession, hdate, hgate, hins, Bool.not_true,
        Bool.false_eq_true, if_false, if_true]
      refine ⟨?_, ?_, ?_⟩ <;> simp
    · have hgate : is_session_exists sd.metaSessionQueryRaises db sd.name = false := by
        rw [h3]
        simp only [is_session_exists, Bool.false_eq_true, if_false]
        rw [Bool.not_eq_true] at hindb
        exact hindb
      simp only [processMetaSession, hdate, hgate, Bool.not_true, Bool.false_eq_true,
        if_false, h1, h2]
      rw [runWithRetry_zero sd.hasMetadataFile Nat.one_pos,
        runWithRetry_zero () Nat.one_pos]
      by_cases hmeta : sd.hasMetadataFile = true
      · simp only [hmeta, Bool.not_true, Bool.false_eq_true, if_false]
        by_cases hparse : sd.parseOk = true
        · simp only [hparse, Bool.not_true, Bool.false_eq_true, if_false]
          have hinsert : insert_session sd.insertRaises db
              (prepare_session_record did sd.name sd.payload) =
              ({ db with sessions :=
                db.sessions ++ [prepare_session_record did sd.name sd.payload] }, true) := by
            rw [Bool.not_eq_true] at hindb
            simp [insert_session, prepare_session_record, hindb, h4]
          simp only [hinsert, if_true, hdbg, Bool.false_and, Bool.false_eq_true]
          have hins : metaInsertable a sd db = true := by
            rw [Bool.not_eq_true] at hindb
            simp [metaInsertable, metaIndep, hdate, hmeta, hparse, hindb]
          simp only [hins, if_true]
          refine ⟨?_, ?_, ?_⟩ <;> simp
        · have hins : metaInsertable a sd db = false := by
            rw [Bool.not_eq_true] at hparse
            simp [metaInsertable, metaIndep, hparse]
          simp only [Bool.not_eq_true] at hparse
          simp only [hparse, Bool.not_false, if_true, hins, Bool.false_eq_true, if_false]
          refine ⟨?_, ?_, ?_⟩ <;> simp
      · have hins : metaInsertable a sd db = false := by
          rw [Bool.not_eq_true] at hmeta
          simp [metaInsertable, metaIndep, hmeta]
        simp only [Bool.not_eq_true] at hmeta
        simp only [hmeta, Bool.not_false, if_true, hins, Bool.false_eq_true, if_false]
        refine ⟨?_, ?_, ?_⟩ <;> simp
  · have hins : metaInsertable a sd db = false := by
      rw [Bool.not_eq_true] at hdate
      simp [metaInsertable, metaIndep, hdate]
    simp only [Bool.not_eq_true] at hdate
    simp only [processMetaSession, hdate, Bool.not_false, if_true, hins,
      Bool.false_eq_true, if_false]
    refine ⟨?_, ?_, ?_⟩ <;> simp

theorem processMetaSession_extend {a : ScanArgs} (did : String) {sd : SessionDir}
    (db : DB) (st : MetaStats) (hc : cleanMetaSession sd = true)
    (hdbg : a.debug_mode = false) :
    MetaExtend db (processMetaSession a did sd db st).1 := by
  obtain ⟨-, heq, -⟩ := processMetaSession_clean did db st hc hdbg
  rw [heq]
  by_cases hi : metaInsertable a sd db = true
  · rw [if_pos hi]
    exact ⟨⟨[], by simp⟩, ⟨[prepare_session_record did sd.name sd.payload], rfl⟩, rfl⟩
  · rw [if_neg hi]
    exact MetaExtend_refl db

theorem SatS_after_processMetaSession {a : ScanArgs} (did : String) {sd : SessionDir}
    (db : DB) (st : MetaStats) (hc : cleanMetaSession sd = true)
    (hdbg : a.debug_mode = false) :
    SatS a sd (processMetaSession a did sd db st).1 := by
  obtain ⟨-, heq, -⟩ := processMetaSession_clean did db st hc hdbg
  rw [heq]
  by_cases hi : metaInsertable a sd db = true
  · rw [if_pos hi]
    intro _
    simp [sessionInDb, List.any_append, prepare_session_record]
  · rw [if_neg hi]
    intro hidep
    rw [Bool.not_eq_true] at hi
    simp only [metaInsertable, hidep, Bool.true_and, Bool.not_eq_false'] at hi
    exact hi

theorem processMetaSession_noop {a : ScanArgs} (did : String) {sd : SessionDir}
    (db : DB) (st : MetaStats) (hc : cleanMetaSession sd = true)
    (hdbg : a.debug_mode = false) (hsat : SatS a sd db) :
    (processMetaSession a did sd db st).1 = db ∧
    (processMetaSession a did sd db st).2.2 = false ∧
    (processMetaSession a did sd db st).2.1.newSessions = st.newSessions := by
  obtain ⟨hstop, heq, hnew⟩ := processMetaSession_clean did db st hc hdbg
  have hi : metaInsertable a sd db = false := by
    by_cases hidep : metaIndep a sd = true
    · simp [metaInsertable, hidep, hsat hidep]
    · rw [Bool.not_eq_true] at hidep
      simp [metaInsertable, hidep]
  rw [hi] at heq hnew
  simp only [Bool.false_eq_true, if_false] at heq hnew
  exact ⟨heq, hstop, by rw [hnew]; exact Nat.add_zero _⟩

theorem scanMetaSessions_run {a : ScanArgs} (did : String) (hdbg : a.debug_mode = false) :
    ∀ (sds : List SessionDir) (db : DB) (st : MetaStats),
      (∀ sd ∈ sds, cleanMetaSession sd = true) →
      (scanMetaSessions a did sds db st).2.2 = false ∧
      MetaExtend db (scanMetaSessions a did sds db st).1 ∧
      ∀ sd ∈ sds, SatS a sd (scanMetaSessions a did sds db st).1 := by
  intro sds
  induction sds with
  | nil =>
    intro db st _
    exact ⟨rfl, MetaExtend_refl db, fun sd hsd => absurd hsd (List.not_mem_nil sd)⟩
  | cons sd rest ih =>
    intro db st hclean
    have hcsd := hclean sd (List.mem_cons_self _ _)
    have hcrest : ∀ x ∈ rest, cleanMetaSession x = true :=
      fun x hx => hclean x (List.mem_cons_of_mem _ hx)
    obtain ⟨hstop, -, -⟩ := processMetaSession_clean did db st hcsd hdbg
    rcases hps : processMetaSession a did sd db st with ⟨db1, st1, stop⟩
    have hstop1 : stop = false := by rw [hps] at hstop; exact hstop
    subst hstop1
    have hext1 : MetaExtend db db1 := by
      have := processMetaSession_extend did db st hcsd hdbg
      rw [hps] at this
      exact this
    have hsat1 : SatS a sd db1 := by
      have := SatS_after_processMetaSession did db st hcsd hdbg
      rw [hps] at this
      exact this
    obtain ⟨hstopR, hextR, hsatR⟩ := ih db1 st1 hcrest
    simp only [scanMetaSessions, hps]
    refine ⟨hstopR, MetaExtend_trans hext1 hextR, ?_⟩
    intro x hx
    rcases List.mem_cons.1 hx with h | h
    · subst h
      exact SatS_of_metaExtend hsat1 hextR
    · exact hsatR x h

theorem scanMetaSessions_noop {a : ScanArgs} (did : String) (hdbg : a.debug_mode = false) :
    ∀ (sds : List SessionDir) (db : DB) (st : MetaStats),
      (∀ sd ∈ sds, cleanMetaSession sd = true) →
      (∀ sd ∈ sds, SatS a sd db) →
      (scanMetaSessions a did sds db st).1 = db ∧
      (scanMetaSessions a did sds db st).2.2 = false ∧
      (scanMetaSessions a did sds db st).2.1.newSessions = st.newSessions := by
  intro sds
  induction sds with
  | nil =>
    intro db st _ _
    exact ⟨rfl, rfl, rfl⟩
  | cons sd rest ih =>
    intro db st hclean hsat
    have hcsd := hclean sd (List.mem_cons_self _ _)
    obtain ⟨hdb1, hstop1, hnew1⟩ := processMetaSession_noop did db st hcsd hdbg
      (hsat sd (List.mem_cons_self _ _))
    rcases hps : processMetaSession a did sd db st with ⟨db1, st1, stop⟩
    rw [hps] at hdb1 hstop1 hnew1
    simp only at hdb1 hstop1 hnew1
    subst hstop1
    simp only [scanMetaSessions, hps]
    obtain ⟨hr1, hr2, hr3⟩ := ih db1 st1
      (fun x hx => hclean x (List.mem_cons_of_mem _ hx))
      (fun x hx => by rw [hdb1]; exact hsat x (List.mem_cons_of_mem _ hx))
    exact ⟨hr1.trans hdb1, hr2, by rw [hr3, hnew1]⟩

theorem runWithRetry_lt {α : Type} {m f : Nat} (v : α) (h : f < m) :
    runWithRetry m f v = .ok v := by
  simp [runWithRetry, h]

theorem findDevice_register {db : DB} {did : String}
    (hfind : findDevice db did = none) :
    findDevice { db with devices := db.devices ++ [⟨did, false, true⟩] } did =
      some ⟨did, false, true⟩ := by
  unfold findDevice at hfind ⊢
  dsimp only
  rw [find?_append_none hfind]
  rw [List.find?_cons_of_pos]
  simp

/-- Fault-free, non-debug behaviour of one metadata device iteration: the
loop continues, the database only grows, and a device that passes the filter
ends up registered and saturated. -/
theorem processMetaDevice_run {a : ScanArgs} {d : DeviceDir} (db : DB) (st : MetaStats)
    (hc : cleanMetaDevice d = true) (hdbg : a.debug_mode = false) :
    (processMetaDevice a d db st).2.2 = Flow.next ∧
    MetaExtend db (processMetaDevice a d db st).1 ∧
    (passesFilter a.device_id_filter d.device_id = true →
      DevInvM a d (processMetaDevice a d db st).1) := by
  simp only [cleanMetaDevice, Bool.and_eq_true, decide_eq_true_eq, Bool.not_eq_true',
    List.all_eq_true] at hc
  obtain ⟨⟨h5, hreg⟩, hall⟩ := hc
  by_cases hfil : passesFilter a.device_id_filter d.device_id = true
  · simp only [processMetaDevice, hfil, Bool.not_true, Bool.false_eq_true, if_false]
    have hvc : ∀ sd ∈ validSessionsOf d, cleanMetaSession sd = true :=
      fun sd hsd => hall sd (List.mem_filter.1 hsd).1
    cases hfind : findDevice db d.device_id with
    | some r =>
      have hens : ensure_device_exists db d = (db, devGateRow r) := by
        simp [ensure_device_exists, hfind, devGateRow]
      simp only [hens]
      by_cases hgate : devGateRow r = true
      · simp only [hgate, Bool.not_true, Bool.false_eq_true, if_false]
        simp only [runWithRetry_lt d h5]
        obtain ⟨hstop, hext, hsat⟩ := scanMetaSessions_run d.device_id hdbg
          (validSessionsOf d) db { st with devicesScanned := st.devicesScanned + 1 } hvc
        rcases hss : scanMetaSessions a d.device_id (validSessionsOf d) db
            { st with devicesScanned := st.devicesScanned + 1 } with ⟨db2, st2, stop⟩
        rw [hss] at hstop hext hsat
        simp only at hstop hext hsat
        subst hstop
        exact ⟨rfl, hext,
          fun _ => ⟨r, findDevice_stable hfind hext, fun _ => hsat⟩⟩
      · simp only [hgate, Bool.not_false, if_true]
        exact ⟨by trivial, MetaExtend_refl db,
          fun _ => ⟨r, hfind, fun hg => absurd hg hgate⟩⟩
    | none =>
      have hens : ensure_device_exists db d =
          ({ db with devices := db.devices ++ [⟨d.device_id, false, true⟩] }, true) := by
        simp [ensure_device_exists, hfind, hreg]
      simp only [hens, Bool.not_true, Bool.false_eq_true, if_false]
      simp only [runWithRetry_lt d h5]
      have hextR : MetaExtend db
          { db with devices := db.devices ++ [⟨d.device_id, false, true⟩] } :=
        ⟨⟨[⟨d.device_id, false, true⟩], rfl⟩, ⟨[], by simp⟩, rfl⟩
      obtain ⟨hstop, hext, hsat⟩ := scanMetaSessions_run d.device_id hdbg
        (validSessionsOf d) { db with devices := db.devices ++ [⟨d.device_id, false, true⟩] }
        { st with devicesScanned := st.devicesScanned + 1 } hvc
      rcases hss : scanMetaSessions a d.device_id (validSessionsOf d)
          { db with devices := db.devices ++ [⟨d.device_id, false, true⟩] }
          { st with devicesScanned := st.devicesScanned + 1 } with ⟨db2, st2, stop⟩
      rw [hss] at hstop hext hsat
      simp only at hstop hext hsat
      subst hstop
      refine ⟨rfl, MetaExtend_trans hextR hext, fun _ => ?_⟩
      exact ⟨⟨d.device_id, false, true⟩,
        findDevice_stable (findDevice_register hfind) hext, fun _ => hsat⟩
  · simp only [processMetaDevice, hfil, Bool.not_false, if_true]
    exact ⟨by trivial, MetaExtend_refl db, fun h => nomatch h⟩

theorem scanMetaDevices_run {a : ScanArgs} (hdbg : a.debug_mode = false) :
    ∀ (devs : List DeviceDir) (db : DB) (st : MetaStats),
      (∀ d ∈ devs, cleanMetaDevice d = true) →
      (scanMetaDevices a devs db st).aborted = false ∧
      MetaExtend db (scanMetaDevices a devs db st).db ∧
      ∀ d ∈ devs, passesFilter a.device_id_filter d.device_id = true →
        DevInvM a d (scanMetaDevices a devs db st).db := by
  intro devs
  induction devs with
  | nil =>
    intro db st _
    exact ⟨rfl, MetaExtend_refl db, fun d hd => absurd hd (List.not_mem_nil d)⟩
  | cons d rest ih =>
    intro db st hclean
    have hcd := hclean d (List.mem_cons_self _ _)
    obtain ⟨hflow, hext1, hinv1⟩ := processMetaDevice_run db st hcd hdbg
    rcases hpd : processMetaDevice a d db st with ⟨db1, st1, flow⟩
    rw [hpd] at hflow hext1 hinv1
    simp only at hflow hext1 hinv1
    subst hflow
    simp only [scanMetaDevices, hpd]
    obtain ⟨hr1, hr2, hr3⟩ := ih db1 st1
      (fun x hx => hclean x (List.mem_cons_of_mem _ hx))
    refine ⟨hr1, MetaExtend_trans hext1 hr2, ?_⟩
    intro x hx hpass
    rcases List.mem_cons.1 hx with h | h
    · subst h
      exact DevInvM_of_metaExtend (hinv1 hpass) hr2
    · exact hr3 x h hpass

theorem processMetaDevice_noop {a : ScanArgs} {d : DeviceDir} (db : DB) (st : MetaStats)
    (hc : cleanMetaDevice d = true) (hdbg : a.debug_mode = false)
    (hinv : passesFilter a.device_id_filter d.device_id = true → DevInvM a d db) :
    (processMetaDevice a d db st).1 = db ∧
    (processMetaDevice a d db st).2.2 = Flow.next ∧
    (processMetaDevice a d db st).2.1.newSessions = st.newSessions := by
  simp only [cleanMetaDevice, Bool.and_eq_true, decide_eq_true_eq, Bool.not_eq_true',
    List.all_eq_true] at hc
  obtain ⟨⟨h5, hreg⟩, hall⟩ := hc
  by_cases hfil : passesFilter a.device_id_filter d.device_id = true
  · obtain ⟨r, hfind, hgate⟩ := hinv hfil
    simp only [processMetaDevice, hfil, Bool.not_true, Bool.false_eq_true, if_false]
    have hens : ensure_device_exists db d = (db, devGateRow r) := by
      simp [ensure_device_exists, hfind, devGateRow]
    simp only [hens]
    by_cases hg : devGateRow r = true
    · simp only [hg, Bool.not_true, Bool.false_eq_true, if_false]
      simp only [runWithRetry_lt d h5]
      have hvc : ∀ sd ∈ validSessionsOf d, cleanMetaSession sd = true :=
        fun sd hsd => hall sd (List.mem_filter.1 hsd).1
      obtain ⟨hn1, hn2, hn3⟩ := scanMetaSessions_noop d.device_id hdbg
        (validSessionsOf d) db { st with devicesScanned := st.devicesScanned + 1 }
        hvc (hgate hg)
      rcases hss : scanMetaSessions a d.device_id (validSessionsOf d) db
          { st with devicesScanned := st.devicesScanned + 1 } with ⟨db2, st2, stop⟩
      rw [hss] at hn1 hn2 hn3
      simp only at hn1 hn2 hn3
      subst hn2
      exact ⟨hn1, rfl, hn3⟩
    · simp only [hg, Bool.not_false, if_true]
      refine ⟨?_, ?_, ?_⟩ <;> trivial
  · simp only [processMetaDevice, hfil, Bool.not_false, if_true]
    refine ⟨?_, ?_, ?_⟩ <;> trivial

theorem scanMetaDevices_noop {a : ScanArgs} (hdbg : a.debug_mode = false) :
    ∀ (devs : List DeviceDir) (db : DB) (st : MetaStats),
      (∀ d ∈ devs, cleanMetaDevice d = true) →
      (∀ d ∈ devs, passesFilter a.device_id_filter d.device_id = true → DevInvM a d db) →
      (scanMetaDevices a devs db st).db = db ∧
      (scanMetaDevices a devs db st).aborted = false ∧
      (scanMetaDevices a devs db st).stats.newSessions = st.newSessions := by
  intro devs
  induction devs with
  | nil =>
    intro db st _ _
    exact ⟨rfl, rfl, rfl⟩
  | cons d rest ih =>
    intro db st hclean hinvs
    have hcd := hclean d (List.mem_cons_self _ _)
    obtain ⟨hn1, hn2, hn3⟩ := processMetaDevice_noop db st hcd hdbg
      (hinvs d (List.mem_cons_self _ _))
    rcases hpd : processMetaDevice a d db st with ⟨db1, st1, flow⟩
    rw [hpd] at hn1 hn2 hn3
    simp only at hn1 hn2 hn3
    subst hn2
    simp only [scanMetaDevices, hpd]
    obtain ⟨hr1, hr2, hr3⟩ := ih db1 st1
      (fun x hx => hclean x (List.mem_cons_of_mem _ hx))
      (fun x hx hpass => by rw [hn1]; exact hinvs x (List.mem_cons_of_mem _ hx) hpass)
    exact ⟨hr1.trans hn1, hr2, by rw [hr3, hn3]⟩

/-! ## C1: metadata-phase idempotence -/

/-- C1: over a fault-free remote state (no transient failures scheduled, all
listings within retry budget) and with debug mode off, running the metadata
phase a second time over the same remote state, date range and device filter,
starting from the database the first run produced, changes nothing: the
database (in particular the set of Session rows) is identical and the second
run counts zero new sessions — every session is either outside the range,
gated out by the existence check, or was already not ingestable in the first
run for reasons independent of the database. -/
theorem metadata_phase_idempotent (remote : Remote) (db : DB) (a : ScanArgs)
    (hclean : cleanMetaRemote remote = true) (hdbg : a.debug_mode = false) :
    (scan_metadata remote (scan_metadata remote db a).db a).db =
      (scan_metadata remote db a).db ∧
    (scan_metadata remote (scan_metadata remote db a).db a).stats.newSessions = 0 ∧
    (scan_metadata remote (scan_metadata remote db a).db a).aborted = false ∧
    (scan_metadata remote db a).aborted = false := by
  simp only [cleanMetaRemote, Bool.and_eq_true, decide_eq_true_eq,
    List.all_eq_true] at hclean
  obtain ⟨h5, hall⟩ := hclean
  have hlist : runWithRetry 5 remote.listDevFailures remote.devices =
      .ok remote.devices := runWithRetry_lt _ h5
  simp only [scan_metadata, hlist]
  obtain ⟨hab1, hext1, hinv1⟩ := scanMetaDevices_run hdbg remote.devices db metaStats0 hall
  obtain ⟨hr1, hr2, hr3⟩ := scanMetaDevices_noop hdbg remote.devices
    (scanMetaDevices a remote.devices db metaStats0).db metaStats0 hall hinv1
  exact ⟨hr1, hr3, hr2, hab1⟩

/-- C1 witness: the idempotence theorem applied to the concrete clean remote. -/
theorem metadata_phase_idempotent_witness :
    (scan_metadata remClean (scan_metadata remClean dbEmpty argsW).db argsW).db =
      (scan_metadata remClean dbEmpty argsW).db ∧
    (scan_metadata remClean (scan_metadata remClean dbEmpty argsW).db argsW).stats.newSessions
      = 0 :=
  ⟨(metadata_phase_idempotent remClean dbEmpty argsW (by decide) rfl).1,
    (metadata_phase_idempotent remClean dbEmpty argsW (by decide) rfl).2.1⟩

/-! ## C8: command parsing -/

/-- C8: `parse_scan_command` maps "/scan 7393 2025-01-15" to device "7393"
with start = end = 2025-01-15, maps "/scan 7393 2025-01-01 2025-01-15" to that
range, returns none on "/scan" alone, rejects a device token with a character
outside [\w-] and a token containing "date", defaults both dates to today for
a single-token "/scan <device>", and rejects malformed dates;
`parse_export_command` maps "/export all" to the export-all flag and
"/export 2025-01-15" to a single-day range, rejecting malformed dates. -/
theorem command_parsing_examples :
    parse_scan_command theDay "/scan 7393 2025-01-15" =
      some ⟨"7393", ⟨2025, 1, 15⟩, ⟨2025, 1, 15⟩⟩ ∧
    parse_scan_command theDay "/scan 7393 2025-01-01 2025-01-15" =
      some ⟨"7393", ⟨2025, 1, 1⟩, ⟨2025, 1, 15⟩⟩ ∧
    parse_scan_command theDay "/scan" = none ∧
    parse_scan_command theDay "/scan dev! 2025-01-15" = none ∧
    parse_scan_command theDay "/scan update 2025-01-15" = none ∧
    parse_scan_command ⟨2025, 10, 12⟩ "/scan 7393" =
      some ⟨"7393", ⟨2025, 10, 12⟩, ⟨2025, 10, 12⟩⟩ ∧
    parse_export_command theDay "/export all" = some ⟨none, none, true⟩ ∧
    parse_export_command theDay "/export 2025-01-15" =
      some ⟨some ⟨2025, 1, 15⟩, some ⟨2025, 1, 15⟩, false⟩ ∧
    parse_scan_command theDay "/scan 7393 2025-13-40" = none ∧
    parse_export_command theDay "/export 2025-02-30" = none := by
  decide

/-! ## C9: the existence oracle fails open -/

/-- C9: `is_session_exists` and `is_segment_exists` return False whenever the
underlying SELECT raises, so a lookup failure makes the pipeline proceed to
the insert attempt (backstopped by the unique constraint) instead of skipping
the entity as present or aborting: in the concrete scenario the session row
is already present, the lookup raises, and the run records one insert failure
(the discarded unique violation), zero "already exists" skips, and leaves the
database unchanged. -/
theorem existence_oracle_fails_open :
    (∀ (db : DB) (sid : String), is_session_exists true db sid = false) ∧
    (∀ (db : DB) (sid num : String), is_segment_exists true db sid num = false) ∧
    (scan_metadata remOracleDown dbWithSession argsW).db = dbWithSession ∧
    (scan_metadata remOracleDown dbWithSession argsW).stats.existingSessions = 0 ∧
    (scan_metadata remOracleDown dbWithSession argsW).stats.insertFailures = 1 ∧
    (scan_metadata remOracleDown dbWithSession argsW).stats.newSessions = 0 := by
  refine ⟨fun db sid => rfl, fun db sid num => rfl, ?_, ?_, ?_, ?_⟩ <;> decide

/-! ## C10: size lookup failures become size 0 -/

/-- C10: `get_object_size` never propagates a failure — a raising head_object
call yields 0 — and a paired segment whose down-file size lookup failed is
still inserted, with down_file_size_bytes recorded as 0 and counted as a new
segment rather than as a failed entity. -/
theorem object_size_fails_to_zero :
    (∀ (k : String) (n : Nat), get_object_size ⟨k, n, true⟩ = 0) ∧
    (∀ (k : String) (n : Nat), get_object_size ⟨k, n, false⟩ = n) ∧
    (scan_segments remHeadDown dbWithSession argsW).db.segments =
      [⟨sidW, "0001", "cam_down_sbs_0001.mp4", "oss://bkt/" ++ downKeyW, 0,
        "cam_front_sbs_0001.mp4", "oss://bkt/" ++ frontKeyW, 222⟩] ∧
    (scan_segments remHeadDown dbWithSession argsW).stats.newSegments = 1 := by
  refine ⟨fun k n => rfl, fun k n => rfl, ?_, ?_⟩ <;> decide

/-! ## C6: unique-constraint violations are benign -/

/-- C6: an insert of a Session or Segment that hits the unique constraint is
rolled back — the database is exactly what it was before the attempt — and
reported as False ("already exists") rather than raised; and the phase
continues with the remaining entities: in the concrete scenario the first
session's insert hits the unique constraint (its existence SELECT raised even
though the row is present) and the second session is still ingested. -/
theorem unique_violation_benign :
    (∀ (b : Bool) (db : DB) (r : SessionRow), sessionInDb db r.session_id = true →
      insert_session b db r = (db, false)) ∧
    (∀ (b : Bool) (db : DB) (r : SegmentRow),
      segmentInDb db r.session_id r.segment_number = true →
      insert_segment b db r = (db, false)) ∧
    (scan_metadata remDupThenNew dbWithSession argsW).db.sessions =
      dbWithSession.sessions ++ [⟨sidW2, "7393", "{}"⟩] ∧
    (scan_metadata remDupThenNew dbWithSession argsW).stats.insertFailures = 1 ∧
    (scan_metadata remDupThenNew dbWithSession argsW).stats.newSessions = 1 ∧
    (scan_metadata remDupThenNew dbWithSession argsW).aborted = false := by
  refine ⟨?_, ?_, by decide, by decide, by decide, by decide⟩
  · intro b db r h
    simp [insert_session, h]
  · intro b db r h
    simp [insert_segment, h]

/-- C6 witness: the general parts applied to a concrete database in which the
row is present. -/
theorem unique_violation_benign_witness :
    (sessionInDb dbWithSession sidW = true ∧
      insert_session false dbWithSession ⟨sidW, "7393", "{}"⟩ = (dbWithSession, false)) ∧
    (segmentInDb ⟨[], [], [⟨sidW, "0001", "a", "b", 1, "c", "d", 2⟩]⟩ sidW "0001" = true ∧
      insert_segment false ⟨[], [], [⟨sidW, "0001", "a", "b", 1, "c", "d", 2⟩]⟩
        ⟨sidW, "0001", "x", "y", 3, "z", "w", 4⟩ =
        (⟨[], [], [⟨sidW, "0001", "a", "b", 1, "c", "d", 2⟩]⟩, false)) :=
  ⟨⟨by decide, unique_violation_benign.1 false dbWithSession ⟨sidW, "7393", "{}"⟩ (by decide)⟩,
    ⟨by decide, unique_violation_benign.2.1 false ⟨[], [], [⟨sidW, "0001", "a", "b", 1, "c", "d", 2⟩]⟩
      ⟨sidW, "0001", "x", "y", 3, "z", "w", 4⟩ (by decide)⟩⟩

/-! ## C2: single-flight mutual exclusion -/

/-- C2: a job request is accepted iff no job is running; while one runs, any
request is rejected leaving the state (and hence the worker pool) untouched,
and every reachable running state carries a non-empty current-task
description; the worker's guaranteed-cleanup block clears the running flag
and description whatever the outcome, after which a request is accepted
again; and of two requests arriving at an idle executor (serialized by the
lock in either order), exactly the first is accepted. -/
theorem single_flight_executor :
    (∀ (j : Job) (s : ExecState), (try_start j s).2 = true ↔ s.is_running = false) ∧
    (∀ (j : Job) (s : ExecState), s.is_running = true → try_start j s = (s, false)) ∧
    (∀ (s : ExecState), ExecReachable s → s.is_running = true →
      ∃ d, s.current_task = some d ∧ d ≠ "") ∧
    (∀ (o : JobOutcome) (s : ExecState), (run_scan o s).is_running = false ∧
      (run_export o s).is_running = false ∧ (run_scan o s).current_task = none ∧
      (∀ j, (try_start j (run_scan o s)).2 = true)) ∧
    (∀ (j1 j2 : Job) (s : ExecState), s.is_running = false →
      (try_start j1 s).2 = true ∧ (try_start j2 (try_start j1 s).1).2 = false) := by
  refine ⟨?_, ?_, ?_, ?_, ?_⟩
  · intro j s
    cases h : s.is_running <;> simp [try_start, h]
  · intro j s h
    simp [try_start, h]
  · intro s hreach
    induction hreach with
    | init => intro h; simp [execInit] at h
    | step _ hstep ih =>
      rename_i s0 s1 _
      cases hstep with
      | request j s0 =>
        by_cases h0 : s0.is_running = true
        · have hs : (try_start j s0).1 = s0 := by simp [try_start, h0]
          rw [hs]
          exact ih
        · have hs : (try_start j s0).1 =
              { is_running := true, current_task := some (jobDesc j) } := by
            simp [try_start, h0]
          rw [hs]
          intro _
          exact ⟨jobDesc j, rfl, jobDesc_ne_empty j⟩
      | scanDone o s0 =>
        cases o <;> simp [run_scan]
      | exportDone o s0 =>
        cases o <;> simp [run_export]
  · intro o s
    cases o <;> simp [run_scan, run_export, try_start]
  · intro j1 j2 s h
    simp [try_start, h]

/-- C2 witness: the parts applied at a fresh executor and a concrete scan
request. -/
theorem single_flight_executor_witness :
    ((try_start jobW execInit).2 = true ↔ execInit.is_running = false) ∧
    (∃ d, (try_start jobW execInit).1.current_task = some d ∧ d ≠ "") ∧
    ((try_start jobW execInit).2 = true ∧
      (try_start jobW2 (try_start jobW execInit).1).2 = false) :=
  ⟨single_flight_executor.1 jobW execInit,
    single_flight_executor.2.2.1 (try_start jobW execInit).1
      (ExecReachable.step ExecReachable.init (ExecStep.request jobW execInit)) (by decide),
    single_flight_executor.2.2.2.2 jobW jobW2 execInit (by decide)⟩

/-! ## C7: the retry contract -/

/-- C7 counterexample: the claim says every remote-storage operation used by
the pipeline, in particular the object-existence check, is retried up to 5
attempts on transient errors. In the code `bucket.object_exists` is called
bare (info_scan.py line 529, a single attempt): on a schedule with exactly
one transient failure the call fails, although the claimed 5-attempt retry
would have succeeded, and the scan consequently counts the session as failed
and ingests nothing. -/
theorem retry_contract_counterexample :
    runWithRetry 1 1 true = (OpResult.failed : OpResult Bool) ∧
    runWithRetry 5 1 true = OpResult.ok true ∧
    (scan_metadata remExistsFlaky dbEmpty argsW).stats.newSessions = 0 ∧
    (scan_metadata remExistsFlaky dbEmpty argsW).stats.parseFailures = 1 ∧
    (scan_metadata remExistsFlaky dbEmpty argsW).db.sessions = [] := by
  refine ⟨rfl, rfl, ?_, ?_, ?_⟩ <;> decide

/-- C7 (amended): the prefix and object listings are retried on any error up
to 5 attempts with exponential backoff (waits 1s, 2s, 4s, 8s, always between
1s and the 10s cap) — a root listing with 4 transient failures still succeeds
and one with 5 aborts the phase with the database untouched; the
object-existence check and the metadata download are single unretried
attempts whose failure is caught per session, so one flaky session is counted
failed while its sibling is still ingested; the size lookup swallows its
failure and returns 0 (see the C10 theorem). -/
theorem retry_contract_amended :
    (scan_metadata remListFlaky4 dbEmpty argsW).aborted = false ∧
    (scan_metadata remListFlaky4 dbEmpty argsW).stats.newSessions = 1 ∧
    (scan_metadata remListDead dbEmpty argsW).aborted = true ∧
    (scan_metadata remListDead dbEmpty argsW).db = dbEmpty ∧
    (scan_metadata remIsolation dbEmpty argsW).stats.parseFailures = 1 ∧
    (scan_metadata remIsolation dbEmpty argsW).stats.newSessions = 1 ∧
    (scan_metadata remIsolation dbEmpty argsW).db.sessions = [⟨sidW2, "7393", "{}"⟩] ∧
    backoffWaitDs 1 = 10 ∧ backoffWaitDs 2 = 20 ∧ backoffWaitDs 3 = 40 ∧
    backoffWaitDs 4 = 80 ∧
    (∀ n, 10 ≤ backoffWaitDs n ∧ backoffWaitDs n ≤ 100) := by
  refine ⟨by decide, by decide, by decide, by decide, by decide, by decide, by decide,
    rfl, rfl, rfl, rfl, ?_⟩
  intro n
  constructor
  · exact le_min (le_max_right _ _) (by norm_num)
  · exact min_le_right _ _

end FPV
